import Mathlib

/-!
Verification development for the templify document layout and export engine.

The definitions below are shallow embeddings of the TypeScript source in
`src/lib/tiptap-utils.ts` and `src/lib/pdf-export.ts` (the latter contains
three concatenated historical modules: the PDF engine, a legacy `docx`
generator, and the template-based word-package serializer).

External collaborators are modelled as explicit function parameters:
font metrics (`pdf-lib`'s `font.widthOfTextAtSize`, taken additive over
characters with values in `ℚ`), image decoding (`getImageSize`) and the
browser base64 decoder (`atob`).  Geometry is exact rational arithmetic.
-/

namespace Templify

/-- Model of the JS `\s` character class (whitespace). -/
def isSpaceChar (c : Char) : Bool := c.isWhitespace

/-- Model of the JS `.` regex class: matches everything except line
terminators. -/
def isLineTerm (c : Char) : Bool :=
  c = '\n' || c = '\r' || c.val == 0x2028 || c.val == 0x2029

/-- `PdfRun` (pdf-export.ts): a span of text with independent style flags. -/
structure PdfRun where
  text : String
  bold : Bool := false
  italic : Bool := false
  underline : Bool := false
deriving DecidableEq, Repr

/-- The four font variants (regular/bold/italic/boldItalic) embedded by
`buildPdfBytes` for one text role, each modelled as a per-character width at
the call's font size. -/
structure FontSet where
  regular : Char → ℚ
  bold : Char → ℚ
  italic : Char → ℚ
  boldItalic : Char → ℚ

/-- All four variants of a font set assign nonnegative widths. -/
def FontSet.Nonneg (fonts : FontSet) : Prop :=
  ∀ c, 0 ≤ fonts.regular c ∧ 0 ≤ fonts.bold c ∧ 0 ≤ fonts.italic c ∧
    0 ≤ fonts.boldItalic c

/-- `pickFont` (pdf-export.ts): selects the font variant for a run from its
bold/italic flags. -/
def pickFont (run : PdfRun) (fonts : FontSet) : Char → ℚ :=
  if run.bold && run.italic then fonts.boldItalic
  else if run.bold then fonts.bold
  else if run.italic then fonts.italic
  else fonts.regular

/-- Width of a character list under a per-character metric. -/
def strWidthChars (f : Char → ℚ) (cs : List Char) : ℚ := (cs.map f).sum

/-- `font.widthOfTextAtSize(text, size)` in the additive character model. -/
def strWidth (f : Char → ℚ) (s : String) : ℚ := strWidthChars f s.data

/-- Width of one wrapped segment, measured with its own style's font. -/
def segWidth (fonts : FontSet) (s : PdfRun) : ℚ := strWidth (pickFont s fonts) s.text

/-- Measured width of a wrapped line: the sum of the per-segment font widths
(this is exactly how `drawLineSegments` measures a line). -/
def lineWidth (fonts : FontSet) (l : List PdfRun) : ℚ := (l.map (segWidth fonts)).sum

/-- `text.split(/(\s+)/)` with the empty strings removed: the maximal runs of
whitespace / non-whitespace characters of the text, in order. -/
def tokenize (cs : List Char) : List (List Char) :=
  cs.foldr
    (fun c acc =>
      match acc with
      | [] => [[c]]
      | t :: ts =>
        match t with
        | [] => [c] :: ts
        | d :: _ =>
          if isSpaceChar c == isSpaceChar d then (c :: t) :: ts else [c] :: t :: ts)
    []

/-- `/^\s+$/.test(token)`: nonempty and all whitespace. -/
def isSpaceTok (cs : List Char) : Bool := !cs.isEmpty && cs.all isSpaceChar

/-- JS `String.prototype.trim`: strip whitespace from both ends. -/
def jsTrim (s : String) : String :=
  String.mk (((s.data.dropWhile isSpaceChar).reverse.dropWhile isSpaceChar).reverse)

/-- A wrapped segment that consists purely of whitespace. -/
def wsSeg (s : PdfRun) : Bool := isSpaceTok s.text.data

/-- The mutable state of the `wrapRuns` loop. -/
structure WrapState where
  lines : List (List PdfRun)
  current : List PdfRun
  currentWidth : ℚ

/-- The `pushLine` closure of `wrapRuns`. -/
def pushLine (st : WrapState) : WrapState :=
  { lines := st.lines ++ [st.current], current := [], currentWidth := 0 }

/-- One character of the character-by-character packing fallback inside
`wrapRuns` (taken for a token wider than `maxWidth`). -/
def packChar (f : Char → ℚ) (run : PdfRun) (maxWidth : ℚ) (st : WrapState)
    (c : Char) : WrapState :=
  let charWidth := f c
  let st' :=
    if st.currentWidth + charWidth > maxWidth ∧ st.current ≠ [] then pushLine st
    else st
  { st' with
    current := st'.current ++ [{ run with text := String.mk [c] }],
    currentWidth := st'.currentWidth + charWidth }

/-- One token of the `wrapRuns` loop body (`if (!token) continue` included). -/
def consumeToken (fonts : FontSet) (maxWidth : ℚ) (run : PdfRun) (st : WrapState)
    (token : List Char) : WrapState :=
  if token = [] then st
  else
    let isSpace := isSpaceTok token
    let f := pickFont run fonts
    let tokenWidth := strWidthChars f token
    let st' :=
      if st.currentWidth + tokenWidth > maxWidth ∧ st.current ≠ [] ∧ isSpace = false then
        pushLine st
      else st
    if tokenWidth > maxWidth then token.foldl (packChar f run maxWidth) st'
    else
      { st' with
        current := st'.current ++ [{ run with text := String.mk token }],
        currentWidth := st'.currentWidth + tokenWidth }

/-- The outer loop of `wrapRuns` over one run. -/
def consumeRun (fonts : FontSet) (maxWidth : ℚ) (st : WrapState) (run : PdfRun) :
    WrapState :=
  (tokenize run.text.data).foldl (consumeToken fonts maxWidth run) st

/-- `wrapRuns` (pdf-export.ts): greedy whitespace-token wrapping with
character packing for over-wide tokens; returns at least one (possibly
empty) line. -/
def wrapRuns (runs : List PdfRun) (maxWidth : ℚ) (fonts : FontSet) :
    List (List PdfRun) :=
  let st := runs.foldl (consumeRun fonts maxWidth) ⟨[], [], 0⟩
  let lines := if st.current = [] then st.lines else st.lines ++ [st.current]
  if lines = [] then [[{ text := "" }]] else lines

/-- Drops the trailing all-whitespace segments of a wrapped line. -/
def dropTrailingWs (l : List PdfRun) : List PdfRun :=
  (l.reverse.dropWhile wsSeg).reverse

/-! ### Heading numbering normalizer (tiptap-utils.ts) -/

/-- Structural worker for `parseDotGroups`; the fuel is an upper bound on
the input length, so the fuel-exhaustion branch is never taken. -/
def parseDotGroupsAux : ℕ → List Char → List (List Char) × List Char
  | _, [] => ([], [])
  | 0, rest => ([], rest)
  | fuel + 1, c :: cs =>
    if c = '.' then
      let ds := cs.takeWhile Char.isDigit
      if ds = [] then ([], c :: cs)
      else
        let r := parseDotGroupsAux fuel (cs.dropWhile Char.isDigit)
        (ds :: r.1, r.2)
    else ([], c :: cs)

/-- The `(?:\.\d+)*` part of `numberedHeadingPattern`: greedily consumes
`"."`-plus-digit groups, returning the digit groups and the rest. -/
def parseDotGroups (cs : List Char) : List (List Char) × List Char :=
  parseDotGroupsAux cs.length cs

/-- The regex `numberedHeadingPattern = /^(\d+(?:\.\d+)*)(?:\.)?\s+(.*)$/`
applied to a whole string: on success, the dot-separated digit groups of
capture 1 together with the capture-2 title. -/
def headingMatch (s : String) : Option (List (List Char) × String) :=
  let cs := s.data
  let d1 := cs.takeWhile Char.isDigit
  if d1 = [] then none
  else
    let (gs, rest) := parseDotGroups (cs.dropWhile Char.isDigit)
    let restAfterDot :=
      match rest with
      | '.' :: r => if (r.head?.map isSpaceChar).getD false then some r else none
      | r => some r
    match restAfterDot with
    | none => none
    | some r =>
      let ws := r.takeWhile isSpaceChar
      if ws = [] then none
      else
        let title := r.dropWhile isSpaceChar
        if title.any isLineTerm then none
        else some (d1 :: gs, String.mk title)

/-- `while (currentNumbers.length < level - 1) currentNumbers.push(1)`. -/
def padTo (s : List ℕ) (n : ℕ) : List ℕ := s ++ List.replicate (n - s.length) 1

/-- JS array index assignment `s[i] = v` for `i ≤ s.length` (the only case
the normalizer reaches): update in place, or append when `i = s.length`. -/
def setIdx (s : List ℕ) (i : ℕ) (v : ℕ) : List ℕ :=
  if i < s.length then s.set i v else s ++ [v]

/-- The counter-stack update of `createNumberingNormalizer` for a heading of
the given level (tiptap-utils.ts lines 36-49). -/
def stepLevel (s : List ℕ) (level : ℕ) : List ℕ :=
  if level = 1 then [s.headD 0 + 1]
  else
    let s1 := padTo s (level - 1)
    let s2 :=
      if s1.length = level then s1.set (level - 1) (s1.getD (level - 1) 0 + 1)
      else setIdx s1 (level - 1) 1
    s2.take level

/-- `currentNumbers.join(".")`. -/
def dotJoin (s : List ℕ) : String := String.intercalate "." (s.map toString)

/-- The result type of one normalizer call. -/
structure NumberedHeading where
  text : String
  isHeading : Bool
deriving DecidableEq, Repr

/-- The closure returned by `createNumberingNormalizer`, with its captured
`currentNumbers` state made explicit: one call on one line of text. -/
def normalizeNumbering (s : List ℕ) (text : String) : List ℕ × NumberedHeading :=
  match headingMatch (jsTrim text) with
  | none => (s, ⟨text, false⟩)
  | some (comps, title) =>
    let level := comps.length
    let s' := stepLevel s level
    (s', ⟨dotJoin s' ++ " " ++ title, true⟩)

/-- The normalizer run over a sequence of lines in document order. -/
def runNormalizer (s : List ℕ) : List String → List ℕ × List NumberedHeading
  | [] => (s, [])
  | t :: ts =>
    let (s', h) := normalizeNumbering s t
    let (sf, hs) := runNormalizer s' ts
    (sf, h :: hs)

/-! ### Line drawing (pdf-export.ts `drawLineSegments`) -/

/-- Paragraph / box alignment values. -/
inductive Align where
  | left
  | center
  | right
  | justify
deriving DecidableEq, Repr

/-- `TextBoxLayout` (pdf-export.ts). -/
structure TextBox where
  x : ℚ
  y : ℚ
  width : ℚ
  height : ℚ
  fontSize : ℚ
  lineHeight : ℚ
deriving DecidableEq, Repr

/-- A segment together with the x-coordinate `drawText` receives for it. -/
structure PlacedSeg where
  seg : PdfRun
  x : ℚ
deriving DecidableEq, Repr

/-- The x-advance bookkeeping of `drawLineSegments` (pdf-export.ts lines
919-978): each segment's draw position and the final pen position.  The
y-coordinate and the underline strokes carry no horizontal-layout
information and are omitted. -/
def drawLineSegments (segments : List PdfRun) (box : TextBox) (fonts : FontSet)
    (align : Align) (isLastLine : Bool) : List PlacedSeg × ℚ :=
  let lw := lineWidth fonts segments
  let x0 :=
    if segments ≠ [] ∧ align = Align.center then box.x + (box.width - lw) / 2
    else if segments ≠ [] ∧ align = Align.right then box.x + box.width - lw
    else box.x
  let canJustify := align = Align.justify ∧ isLastLine = false ∧ segments.any wsSeg
  let extraSpace := if canJustify then max 0 (box.width - lw) else 0
  let spaceCount : ℕ :=
    if canJustify then ((segments.filter wsSeg).map (·.text.length)).sum else 0
  let extraPerSpace : ℚ := if 0 < spaceCount then extraSpace / spaceCount else 0
  segments.foldl
    (fun (acc : List PlacedSeg × ℚ) seg =>
      let x' := acc.2 + segWidth fonts seg +
        (if canJustify ∧ wsSeg seg then extraPerSpace * seg.text.length else 0)
      (acc.1 ++ [⟨seg, acc.2⟩], x'))
    ([], x0)

/-! ### Tiptap document model and PDF block flattening -/

/-- The attribute values the exporters read from a tiptap node's `attrs`
record (`textAlign`, `src`, `colspan`, `rowspan`, `level`). -/
structure TiptapAttrs where
  textAlign : Option Align := none
  src : Option String := none
  colspan : Option ℕ := none
  rowspan : Option ℕ := none
  level : Option ℤ := none
deriving DecidableEq, Repr

/-- `TiptapNode` (tiptap-utils.ts): type tag, attributes, children, mark
type names and text payload.  A `TiptapDoc` is modelled by its `content`
list. -/
inductive TiptapNode where
  | mk (type : String) (attrs : TiptapAttrs) (content : List TiptapNode)
      (marks : List String) (text : Option String)
deriving Repr

def TiptapNode.type : TiptapNode → String
  | .mk t _ _ _ _ => t

def TiptapNode.attrs : TiptapNode → TiptapAttrs
  | .mk _ a _ _ _ => a

def TiptapNode.content : TiptapNode → List TiptapNode
  | .mk _ _ c _ _ => c

def TiptapNode.marks : TiptapNode → List String
  | .mk _ _ _ m _ => m

def TiptapNode.text : TiptapNode → Option String
  | .mk _ _ _ _ t => t

/-- `getNodeText` (word path): the concatenated text of the direct text
children. -/
def getNodeText (node : TiptapNode) : String :=
  String.join (node.content.map fun child =>
    if child.type = "text" then (child.text).getD "" else "")

mutual

/-- Loop of `extractListParagraphs` / `extractParagraphs` over a list item's
children: paragraphs are kept, nested bullet/ordered lists are flattened. -/
def listItemParas : List TiptapNode → List TiptapNode
  | [] => []
  | TiptapNode.mk ty attrs content marks tx :: rest =>
    (if ty = "paragraph" then [TiptapNode.mk ty attrs content marks tx] else []) ++
    (if ty = "bulletList" ∨ ty = "orderedList" then nestedItemParas content else []) ++
    listItemParas rest

/-- Inner loop over the items of a nested list. -/
def nestedItemParas : List TiptapNode → List TiptapNode
  | [] => []
  | TiptapNode.mk ty _ content _ _ :: rest =>
    (if ty = "listItem" then listItemParas content else []) ++ nestedItemParas rest

end

/-- `extractListParagraphs` (pdf path) = `extractParagraphs` (word path):
the two source functions are identical. -/
def extractListParagraphs (listItem : TiptapNode) : List TiptapNode :=
  listItemParas listItem.content

/-- `PdfParagraph` (pdf-export.ts). -/
structure PdfParagraph where
  runs : List PdfRun
  align : Align
  isHeading : Bool := false
deriving DecidableEq, Repr

/-- `PdfTableCell`. -/
structure PdfTableCell where
  content : List PdfParagraph
  colspan : ℕ
  rowspan : ℕ
deriving DecidableEq, Repr

/-- `PdfTableRow`. -/
structure PdfTableRow where
  cells : List PdfTableCell
deriving DecidableEq, Repr

/-- `PdfBlock`: the flattened renderable unit. -/
inductive PdfBlock where
  | paragraph (p : PdfParagraph)
  | image (src : String)
  | table (rows : List PdfTableRow)
deriving DecidableEq, Repr

/-- `tiptapParagraphToPdf`: text children become styled runs; the alignment
attribute falls back to the caller's default. -/
def tiptapParagraphToPdf (node : TiptapNode) (defaultAlign : Align) : PdfParagraph :=
  let runs := node.content.filterMap fun child =>
    if child.type = "text" then
      some { text := (child.text).getD "",
             bold := child.marks.contains "bold",
             italic := child.marks.contains "italic",
             underline := child.marks.contains "underline" }
    else none
  { runs := runs, align := (node.attrs.textAlign).getD defaultAlign }

/-- The bullet marker literal of the source file (mojibake of a bullet). -/
def bulletMarker : String := "â€¢ "

/-- One node of the `tiptapToPdfBlocks` loop: the blocks the node
contributes and the updated numbering state. -/
def pdfNodeBlocks (defaultAlign : Align) (s : List ℕ) (node : TiptapNode) :
    List ℕ × List PdfBlock :=
  if node.type = "paragraph" ∨ node.type = "heading" then
    let paragraph := tiptapParagraphToPdf node defaultAlign
    if paragraph.runs = [] then
      (s, [PdfBlock.paragraph { runs := [{ text := "" }], align := paragraph.align }])
    else
      let fullText := String.join (paragraph.runs.map PdfRun.text)
      let (s', normalized) := normalizeNumbering s fullText
      if normalized.isHeading then
        (s', [PdfBlock.paragraph
          { runs := [{ text := normalized.text, bold := true }],
            align := paragraph.align, isHeading := true }])
      else (s', [PdfBlock.paragraph paragraph])
  else if node.type = "bulletList" then
    let paras := ((node.content.filter (fun item => item.type = "listItem")).map
      extractListParagraphs).flatten
    (s, paras.map fun paragraph =>
      let base := tiptapParagraphToPdf paragraph defaultAlign
      PdfBlock.paragraph { runs := { text := bulletMarker } :: base.runs, align := base.align })
  else if node.type = "orderedList" then
    let paras := ((node.content.filter (fun item => item.type = "listItem")).map
      extractListParagraphs).flatten
    (s, (paras.enumFrom 1).map fun p =>
      let base := tiptapParagraphToPdf p.2 defaultAlign
      PdfBlock.paragraph
        { runs := { text := toString p.1 ++ ". " } :: base.runs, align := base.align })
  else if node.type = "image" then
    let src := (node.attrs.src).getD ""
    (s, if src = "" then [] else [PdfBlock.image src])
  else if node.type = "table" then
    let rows := node.content.map fun row =>
      PdfTableRow.mk (row.content.map fun cell =>
        let cellParagraphs := cell.content.filterMap fun child =>
          if child.type = "paragraph" then some (tiptapParagraphToPdf child defaultAlign)
          else none
        { content :=
            if cellParagraphs = [] then [{ runs := [{ text := "" }], align := Align.left }]
            else cellParagraphs,
          colspan := (cell.attrs.colspan).getD 1,
          rowspan := (cell.attrs.rowspan).getD 1 })
    (s, [PdfBlock.table rows])
  else (s, [])

/-- `tiptapToPdfBlocks` with the numbering state threaded explicitly. -/
def tiptapToPdfBlocksFrom (s : List ℕ) (doc : List TiptapNode) (defaultAlign : Align) :
    List ℕ × List PdfBlock :=
  doc.foldl
    (fun acc node =>
      let (s', bs) := pdfNodeBlocks defaultAlign acc.1 node
      (s', acc.2 ++ bs))
    (s, [])

/-- `tiptapToPdfBlocks` as called by `buildPdfBytes`: a fresh normalizer. -/
def tiptapToPdfBlocks (doc : List TiptapNode) (defaultAlign : Align) : List PdfBlock :=
  (tiptapToPdfBlocksFrom [] doc defaultAlign).2

/-! ### Measurement and pagination (pdf-export.ts) -/

/-- The slice of `PdfRenderContext` that drives measurement and pagination.
The source always pairs the body fonts with the body font size and the
heading fonts with the heading font size, so each pair is one `FontSet` of
per-character widths. -/
structure RenderCtx where
  bodyX : ℚ
  bodyY : ℚ
  bodyWidth : ℚ
  bodyHeight : ℚ
  bodyLineHeight : ℚ
  headingLineHeight : ℚ
  fonts : FontSet
  headingFonts : FontSet
  bodyAlign : Align

/-- The wrapped lines of a paragraph block at a given width
(`wrapRuns(block.runs, width, ctx, fontSize, isHeading)`). -/
def paragraphLines (ctx : RenderCtx) (p : PdfParagraph) (maxWidth : ℚ) :
    List (List PdfRun) :=
  wrapRuns p.runs maxWidth (if p.isHeading then ctx.headingFonts else ctx.fonts)

/-- Heading vs body line height selection. -/
def paragraphLineHeight (ctx : RenderCtx) (p : PdfParagraph) : ℚ :=
  if p.isHeading then ctx.headingLineHeight else ctx.bodyLineHeight

/-- `Math.max(1, max over rows of summed colspans)`. -/
def tableColumnCount (rows : List PdfTableRow) : ℕ :=
  max 1 ((rows.map (fun row => ((row.cells.map PdfTableCell.colspan).sum))).foldl max 0)

/-- `computeRowHeights`: wrapped cell heights divided across each cell's
rowspan and maxed into the affected rows (rowspans are taken within the
table's rows in this model). -/
def computeRowHeights (rows : List PdfTableRow) (ctx : RenderCtx) (columnWidth : ℚ) :
    List ℚ :=
  let initial : List ℚ := List.replicate rows.length (ctx.bodyLineHeight + 6)
  (rows.enumFrom 0).foldl
    (fun hs rowWithIndex =>
      rowWithIndex.2.cells.foldl
        (fun hs cell =>
          let cellWidth := columnWidth * (cell.colspan : ℚ) - 12
          let height := (cell.content.map fun paragraph =>
            let lines := paragraphLines ctx paragraph cellWidth
            let lh := paragraphLineHeight ctx paragraph
            max ((lines.length : ℚ) * lh) lh).sum
          let perRow := max (ctx.bodyLineHeight + 6) (height / (cell.rowspan : ℚ))
          hs.mapIdx fun i h =>
            if rowWithIndex.1 ≤ i ∧ i < rowWithIndex.1 + cell.rowspan then max h (perRow + 6)
            else h)
        hs)
    initial

/-- `measureTableHeight`. -/
def measureTableHeight (rows : List PdfTableRow) (ctx : RenderCtx) : ℚ :=
  let columnWidth := ctx.bodyWidth / (tableColumnCount rows : ℚ)
  (computeRowHeights rows ctx columnWidth).sum + ctx.bodyLineHeight * (1/2)

/-- `measureBlockHeight`, with `getImageSize` supplied as an oracle. -/
def measureBlockHeight (imgSize : String → ℚ × ℚ) (block : PdfBlock)
    (ctx : RenderCtx) : ℚ :=
  match block with
  | .paragraph p =>
    let lines := paragraphLines ctx p ctx.bodyWidth
    let lh := paragraphLineHeight ctx p
    max ((lines.length : ℚ) * lh) lh
  | .image src =>
    let wh := imgSize src
    let scale := if 0 < wh.1 then min 1 (ctx.bodyWidth / wh.1) else 1
    wh.2 * scale + ctx.bodyLineHeight
  | .table rows => measureTableHeight rows ctx

/-- The cursor advance of `drawParagraphBlock` / `drawImageBlock` /
`drawTableBlock` (each draw function's return value). -/
def drawAdvance (imgSize : String → ℚ × ℚ) (block : PdfBlock) (ctx : RenderCtx)
    (cursorY : ℚ) : ℚ :=
  match block with
  | .paragraph p =>
    let lines := paragraphLines ctx p ctx.bodyWidth
    let lh := paragraphLineHeight ctx p
    cursorY + (lines.length : ℚ) * lh + lh * (1/4)
  | .image src =>
    let wh := imgSize src
    if wh.1 = 0 ∨ wh.2 = 0 then cursorY + ctx.bodyLineHeight
    else
      let scale := min 1 (ctx.bodyWidth / wh.1)
      cursorY + wh.2 * scale + ctx.bodyLineHeight * (1/2)
  | .table rows =>
    let columnWidth := ctx.bodyWidth / (tableColumnCount rows : ℚ)
    cursorY + (computeRowHeights rows ctx columnWidth).sum + ctx.bodyLineHeight * (1/2)

/-- The page-allocation skeleton of `renderRichContent`: content page count
(one page is created before the loop) and final cursor position. -/
def renderContentPages (imgSize : String → ℚ × ℚ) (blocks : List PdfBlock)
    (ctx : RenderCtx) : ℕ × ℚ :=
  let maxY := ctx.bodyY + ctx.bodyHeight
  blocks.foldl
    (fun (acc : ℕ × ℚ) block =>
      let blockHeight := measureBlockHeight imgSize block ctx
      let acc := if acc.2 + blockHeight > maxY then (acc.1 + 1, ctx.bodyY) else acc
      (acc.1, drawAdvance imgSize block ctx acc.2))
    (1, ctx.bodyY)

/-- The number of content pages `renderRichContent` creates for a document. -/
def renderRichContentPages (imgSize : String → ℚ × ℚ) (doc : List TiptapNode)
    (ctx : RenderCtx) : ℕ :=
  (renderContentPages imgSize (tiptapToPdfBlocks doc ctx.bodyAlign) ctx).1

/-- Total page count of `buildPdfBytes`: the copied template first page plus
the content pages. -/
def totalPdfPages (imgSize : String → ℚ × ℚ) (doc : List TiptapNode)
    (ctx : RenderCtx) : ℕ :=
  renderRichContentPages imgSize doc ctx + 1

/-- The label painted on content page `i` (0-based) by `buildPdfBytes`:
`Page ${i + 2} of ${totalPages}`. -/
def pageNumberLabel (i totalPages : ℕ) : String :=
  "Page " ++ toString (i + 2) ++ " of " ++ toString totalPages

/-! ### Word-package serialization (third module of pdf-export.ts) -/

/-- `AlignmentDefaults`. -/
structure AlignmentDefaults where
  paragraph : Align
  heading : Align
  bullet : Align
  ordered : Align
  table : Align
  image : Align
deriving DecidableEq, Repr

/-- `DEFAULT_ALIGNMENT`. -/
def DEFAULT_ALIGNMENT : AlignmentDefaults :=
  ⟨Align.justify, Align.justify, Align.justify, Align.justify, Align.justify,
   Align.center⟩

/-- A font-name / font-size / color triple (`contentStyle`, `headingStyle`). -/
structure RunStyle where
  fontName : String
  fontSize : ℚ
  color : String
deriving DecidableEq, Repr

/-- Control characters stripped by `xmlEscape`:
`[\u0000-\u0008\u000B\u000C\u000E-\u001F]`. -/
def isStrippedCtl (c : Char) : Bool :=
  (c.val ≤ 0x8) || c.val == 0xB || c.val == 0xC ||
  (0xE ≤ c.val && c.val ≤ 0x1F)

/-- Escape a single XML reserved character. -/
def xmlEscapeChar (c : Char) : String :=
  if c = '&' then "&amp;"
  else if c = '<' then "&lt;"
  else if c = '>' then "&gt;"
  else if c = '"' then "&quot;"
  else if c = '\'' then "&apos;"
  else String.mk [c]

/-- `xmlEscape`: strip the low control characters, then escape `& < > " '`. -/
def xmlEscape (value : String) : String :=
  String.join ((value.data.filter (fun c => !isStrippedCtl c)).map xmlEscapeChar)

/-- `value.replace(/\s+/g, " ")` on a character list. -/
def collapseWs (cs : List Char) : List Char :=
  ((tokenize cs).map (fun t => if isSpaceTok t then [' '] else t)).flatten

/-- `normalizeExportText`: non-breaking spaces to spaces, whitespace runs
collapsed to one space, trailing whitespace removed. -/
def normalizeExportText (value : String) : String :=
  let step1 := value.data.map fun c => if c.val == 0xA0 then ' ' else c
  String.mk ((collapseWs step1).reverse.dropWhile isSpaceChar).reverse

/-- `/^\s|\s$/.test(text)`. -/
def startsOrEndsWithWs (s : String) : Bool :=
  ((s.data.head?.map isSpaceChar).getD false) ||
  ((s.data.getLast?.map isSpaceChar).getD false)

/-- `alignmentXml`. -/
def alignmentXml (alignment : Align) : String :=
  match alignment with
  | Align.center => "<w:jc w:val=\"center\"/>"
  | Align.right => "<w:jc w:val=\"right\"/>"
  | Align.justify => "<w:jc w:val=\"both\"/>"
  | Align.left => "<w:jc w:val=\"left\"/>"

/-- The `marks` record taken by `textRunXml` / `buildRunProperties`. -/
structure RunMarks where
  bold : Bool := false
  italics : Bool := false
  underline : Bool := false
  preserveSpace : Bool := false
  color : Option String := none
  fontName : Option String := none
  fontSize : Option ℚ := none
deriving DecidableEq, Repr

/-- `buildRunProperties` (JS falsy values — empty color/font name, zero font
size — behave as absent). -/
def buildRunProperties (marks : RunMarks) : String :=
  let props :=
    (if marks.bold then ["<w:b/>"] else []) ++
    (if marks.italics then ["<w:i/>"] else []) ++
    (if marks.underline then ["<w:u w:val=\"single\"/>"] else []) ++
    (match marks.color with
     | some c => if c = "" then [] else ["<w:color w:val=\"" ++ c ++ "\"/>"]
     | none => []) ++
    (match marks.fontName with
     | some n =>
       if n = "" then []
       else ["<w:rFonts w:ascii=\"" ++ xmlEscape n ++ "\" w:hAnsi=\"" ++
             xmlEscape n ++ "\"/>"]
     | none => []) ++
    (match marks.fontSize with
     | some fs =>
       if fs = 0 then []
       else
         let size := max 1 (round (fs * 2))
         ["<w:sz w:val=\"" ++ toString size ++ "\"/>",
          "<w:szCs w:val=\"" ++ toString size ++ "\"/>"]
     | none => [])
  if props = [] then "" else "<w:rPr>" ++ String.join props ++ "</w:rPr>"

/-- `textRunXml`. -/
def textRunXml (text : String) (marks : RunMarks) : String :=
  let rPr := buildRunProperties marks
  let escaped := xmlEscape text
  let spaceAttr :=
    if marks.preserveSpace ∨ startsOrEndsWithWs text then " xml:space=\"preserve\""
    else ""
  "<w:r>" ++ rPr ++ "<w:t" ++ spaceAttr ++ ">" ++ escaped ++ "</w:t></w:r>"

/-- `buildRunsFromInline`. -/
def buildRunsFromInline (node : TiptapNode) (forceBold : Bool)
    (runStyle : Option RunStyle) : List String :=
  let runs := node.content.filterMap fun child =>
    if child.type = "text" then
      some (textRunXml (normalizeExportText ((child.text).getD ""))
        { bold := forceBold || child.marks.contains "bold",
          italics := child.marks.contains "italic",
          underline := child.marks.contains "underline",
          color := runStyle.map RunStyle.color,
          fontName := runStyle.map RunStyle.fontName,
          fontSize := runStyle.map RunStyle.fontSize })
    else if child.type = "hardBreak" then some "<w:r><w:br/></w:r>"
    else none
  if runs = [] then [textRunXml "" {}] else runs

/-- `ParagraphOptions` (word path). -/
structure ParagraphOptions where
  alignment : Align
  headingLevel : Option ℕ := none
  forceBold : Bool := false
  headingText : Option String := none
  headingStyle : Option RunStyle := none
  runStyle : Option RunStyle := none

/-- `buildParagraphXml` (a falsy — empty — `headingText` falls back to the
inline runs, as in the source's truthiness test). -/
def buildParagraphXml (node : TiptapNode) (options : ParagraphOptions) : String :=
  let runs :=
    match options.headingText with
    | some ht =>
      if ht = "" then buildRunsFromInline node options.forceBold options.runStyle
      else
        [textRunXml ht
          { bold := true,
            color := options.headingStyle.map RunStyle.color,
            fontName := options.headingStyle.map RunStyle.fontName,
            fontSize := options.headingStyle.map RunStyle.fontSize,
            preserveSpace := true }]
    | none => buildRunsFromInline node options.forceBold options.runStyle
  let styleXml :=
    match options.headingLevel with
    | some lvl => "<w:pStyle w:val=\"Heading" ++ toString lvl ++ "\"/>"
    | none => ""
  let pPr := "<w:pPr>" ++ styleXml ++ alignmentXml options.alignment ++ "</w:pPr>"
  "<w:p>" ++ pPr ++ String.join runs ++ "</w:p>"

/-- `emptyParagraphXml`. -/
def emptyParagraphXml : String := "<w:p><w:pPr/></w:p>"

/-- `wrapParagraphWithAlignment`. -/
def wrapParagraphWithAlignment (content : String) (alignment : Align) : String :=
  "<w:p><w:pPr>" ++ alignmentXml alignment ++ "</w:pPr>" ++ content ++ "</w:p>"

/-- `ListParagraphOptions`. -/
structure ListParagraphOptions where
  alignment : Align
  marker : String
  runStyle : Option RunStyle := none

/-- `buildListParagraphXml`. -/
def buildListParagraphXml (node : TiptapNode) (options : ListParagraphOptions) :
    String :=
  let markerRun := textRunXml options.marker
    { preserveSpace := true,
      fontName := options.runStyle.map RunStyle.fontName,
      fontSize := options.runStyle.map RunStyle.fontSize,
      color := options.runStyle.map RunStyle.color }
  let runs := buildRunsFromInline node false options.runStyle
  "<w:p>" ++ "<w:pPr>" ++ alignmentXml options.alignment ++ "</w:pPr>" ++
    markerRun ++ String.join runs ++ "</w:p>"

/-! ### Word-path heading detection and numbering -/

/-- `NumberedHeadingMatch`. -/
structure NumberedHeadingMatch where
  level : ℕ
  title : String
deriving DecidableEq, Repr

/-- `[.!?]`. -/
def isPunctChar (c : Char) : Bool := c = '.' || c = '!' || c = '?'

/-- `/[.!?]$/.test(title)`. -/
def endsWithPunct (s : String) : Bool :=
  (s.data.getLast?.map isPunctChar).getD false

/-- `/[.!?]\s/.test(title)`. -/
def hasPunctSpace (s : String) : Bool :=
  (s.data.zip s.data.tail).any fun p => isPunctChar p.1 && isSpaceChar p.2

/-- `title.split(/\s+/).length` for a trimmed nonempty title: the number of
maximal non-whitespace runs. -/
def countWords (s : String) : ℕ :=
  ((tokenize s.data).filter (fun t => !isSpaceTok t)).length

/-- The numeric part shared by the two `detectNumberedHeading` regexes:
`(\d+(?:\.\d+)*)(?:\.)?\s+(.+)$` — like `headingMatch` but with a required
nonempty title. -/
def numberedPrefixParse (cs : List Char) : Option (List (List Char) × List Char) :=
  let d1 := cs.takeWhile Char.isDigit
  if d1 = [] then none
  else
    let (gs, rest) := parseDotGroups (cs.dropWhile Char.isDigit)
    let restAfterDot :=
      match rest with
      | '.' :: r => if (r.head?.map isSpaceChar).getD false then some r else none
      | r => some r
    match restAfterDot with
    | none => none
    | some r =>
      if r.takeWhile isSpaceChar = [] then none
      else
        let title := r.dropWhile isSpaceChar
        if title = [] ∨ title.any isLineTerm then none
        else some (d1 :: gs, title)

/-- `detectNumberedHeading` (word path): the optional case-insensitive
`section` prefix, the numeric-path pattern, and the sentence-rejection
heuristics, with the level clamped to 1..6. -/
def detectNumberedHeading (node : TiptapNode) : Option NumberedHeadingMatch :=
  let text := jsTrim (getNodeText node)
  if text = "" then none
  else
    let cs := text.data
    let afterSection : Option (List Char) :=
      if (cs.take 7).map Char.toLower = "section".data then
        let r := cs.drop 7
        if r.takeWhile isSpaceChar = [] then none
        else some (r.dropWhile isSpaceChar)
      else none
    let core :=
      match afterSection with
      | some r => numberedPrefixParse r
      | none => numberedPrefixParse cs
    match core with
    | none => none
    | some parsed =>
      let headingTitle := jsTrim (String.mk parsed.2)
      if headingTitle = "" then none
      else if endsWithPunct headingTitle then none
      else if hasPunctSpace headingTitle then none
      else if headingTitle.length > 160 ∨ countWords headingTitle > 20 then none
      else some ⟨min 6 (max 1 parsed.1.length), headingTitle⟩

/-- `applyHeadingNumbering` (word path): increment the fixed counters array
at `level-1`, zero the deeper entries, and emit the first `level` entries
dot-joined before the title.  Call sites guarantee `1 ≤ level ≤ 6`. -/
def applyHeadingNumbering (m : Option NumberedHeadingMatch) (counters : List ℕ) :
    List ℕ × String :=
  match m with
  | none => (counters, "")
  | some hm =>
    let levelIndex := hm.level - 1
    let c1 := counters.set levelIndex (counters.getD levelIndex 0 + 1)
    let c2 := c1.take (levelIndex + 1) ++
      List.replicate (c1.length - (levelIndex + 1)) 0
    (c2, dotJoin (c2.take hm.level) ++ " " ++ hm.title)

/-! ### Word-path document serialization -/

/-- Externally-suspending collaborators of the word path. -/
structure WordOracles where
  atob : String → List ℕ
  imgSize : String → ℚ × ℚ

/-- The slice of `RichContext` used by `tiptapToOpenXmlBlocks`. -/
structure WordCtx where
  zipMedia : List (String × List ℕ)
  relsXml : String
  contentTypesXml : String
  nextRelId : ℕ
  nextImageId : ℕ
  nextDocPrId : ℕ
  alignmentDefaults : AlignmentDefaults
  headingColor : String
  contentStyle : RunStyle
  headingStyle : RunStyle
deriving DecidableEq, Repr

/-- The loop variables of `tiptapToOpenXmlBlocks` plus the context. -/
structure WordLoopState where
  ctx : WordCtx
  headingNumbers : List ℕ
  orderedCounter : ℕ
  inOrderedList : Bool
deriving DecidableEq, Repr

/-- `String.indexOf(needle, start)`: the first match position, if any. -/
def indexOfFrom (hay needle : List Char) (start : ℕ) : Option ℕ :=
  (List.range (hay.length + 1)).find? fun i =>
    decide (start ≤ i) && needle.isPrefixOf (hay.drop i)

/-- `mimeToExtension`. -/
def mimeToExtension (mime : String) : Option String :=
  if mime = "image/png" then some "png"
  else if mime = "image/jpeg" then some "jpeg"
  else if mime = "image/jpg" then some "jpg"
  else if mime = "image/gif" then some "gif"
  else if mime = "image/webp" then some "webp"
  else none

/-- `/^data:(.+?);base64,(.+)$/` with `atob`: the lazy first group takes the
earliest `";base64,"` separator that leaves it nonempty. -/
def parseDataUrl (oracles : WordOracles) (src : String) :
    Option (List ℕ × String × String) :=
  if src.startsWith "data:" then
    let rest := (src.drop 5).data
    match indexOfFrom rest ";base64,".data 1 with
    | none => none
    | some i =>
      let mime := String.mk (rest.take i)
      let base64 := String.mk (rest.drop (i + 8))
      if base64 = "" ∨ base64.data.any isLineTerm then none
      else
        match mimeToExtension mime with
        | none => none
        | some ext => some (oracles.atob base64, mime, ext)
  else none

/-- Replace the first occurrence of `needle` (a `String.replace` with a
non-global constant regex). -/
def replaceFirst (source needle replacement : String) : String :=
  match indexOfFrom source.data needle.data 0 with
  | none => source
  | some i =>
    String.mk (source.data.take i) ++ replacement ++
      String.mk (source.data.drop (i + needle.length))

/-- `IMAGE_REL_TYPE`. -/
def IMAGE_REL_TYPE : String :=
  "http://schemas.openxmlformats.org/officeDocument/2006/relationships/image"

/-- `addImageRelationship`. -/
def addImageRelationship (ctx : WordCtx) (filename : String) : WordCtx × String :=
  let relId := "rId" ++ toString ctx.nextRelId
  let relationship := "<Relationship Id=\"" ++ relId ++ "\" Type=\"" ++
    IMAGE_REL_TYPE ++ "\" Target=\"media/" ++ filename ++ "\"/>"
  ({ ctx with
      nextRelId := ctx.nextRelId + 1,
      relsXml := replaceFirst ctx.relsXml "</Relationships>"
        (relationship ++ "</Relationships>") },
   relId)

/-- `ensureContentType`. -/
def ensureContentType (ctx : WordCtx) (extension mime : String) : WordCtx :=
  let needle := "Extension=\"" ++ extension ++ "\""
  if (indexOfFrom ctx.contentTypesXml.data needle.data 0).isSome then ctx
  else
    let entry := "<Default Extension=\"" ++ extension ++ "\" ContentType=\"" ++
      mime ++ "\"/>"
    { ctx with
      contentTypesXml := replaceFirst ctx.contentTypesXml "</Types>"
        (entry ++ "</Types>") }

/-- `pxToEmu`: pixels times 9525, at least 1. -/
def pxToEmu (px : ℚ) : ℤ := max 1 (round (px * 9525))

/-- `buildImageXml`. -/
def buildImageXml (relId : String) (cx cy : ℤ) (docPrId : ℕ) (name : String) :
    String :=
  "<w:r><w:drawing>" ++
  "<wp:inline distT=\"0\" distB=\"0\" distL=\"0\" distR=\"0\">" ++
  "<wp:extent cx=\"" ++ toString cx ++ "\" cy=\"" ++ toString cy ++ "\"/>" ++
  "<wp:docPr id=\"" ++ toString docPrId ++ "\" name=\"" ++ xmlEscape name ++
  "\"/>" ++
  "<a:graphic xmlns:a=\"http://schemas.openxmlformats.org/drawingml/2006/main\">" ++
  "<a:graphicData uri=\"http://schemas.openxmlformats.org/drawingml/2006/picture\">" ++
  "<pic:pic xmlns:pic=\"http://schemas.openxmlformats.org/drawingml/2006/picture\">" ++
  "<pic:nvPicPr><pic:cNvPr id=\"0\" name=\"" ++ xmlEscape name ++ "\"/>" ++
  "<pic:cNvPicPr/></pic:nvPicPr>" ++
  "<pic:blipFill><a:blip r:embed=\"" ++ relId ++ "\"/>" ++
  "<a:stretch><a:fillRect/></a:stretch></pic:blipFill>" ++
  "<pic:spPr><a:xfrm><a:off x=\"0\" y=\"0\"/>" ++
  "<a:ext cx=\"" ++ toString cx ++ "\" cy=\"" ++ toString cy ++ "\"/></a:xfrm>" ++
  "<a:prstGeom prst=\"rect\"><a:avLst/></a:prstGeom></pic:spPr>" ++
  "</pic:pic></a:graphicData></a:graphic>" ++
  "</wp:inline></w:drawing></w:r>"

/-- `buildImageBlock`: register the decoded payload in the package and build
the inline drawing markup ("" when the source is not a decodable data
URL). -/
def buildImageBlock (oracles : WordOracles) (src : String) (ctx : WordCtx) :
    WordCtx × String :=
  match parseDataUrl oracles src with
  | none => (ctx, "")
  | some parsed =>
    let bytes := parsed.1
    let mime := parsed.2.1
    let extension := parsed.2.2
    let filename := "image" ++ toString ctx.nextImageId ++ "." ++ extension
    let ctx1 := { ctx with
      nextImageId := ctx.nextImageId + 1,
      zipMedia := ctx.zipMedia ++ [("word/media/" ++ filename, bytes)] }
    let rel := addImageRelationship ctx1 filename
    let ctx2 := ensureContentType rel.1 extension mime
    let wh := oracles.imgSize src
    let scale := if 0 < wh.1 then min 1 ((520 : ℚ) / wh.1) else 1
    let widthPx := max 1 (round (wh.1 * scale))
    let heightPx := max 1 (round (wh.2 * scale))
    let cx := pxToEmu (widthPx : ℚ)
    let cy := pxToEmu (heightPx : ℚ)
    let docPrId := ctx2.nextDocPrId
    let ctx3 := { ctx2 with nextDocPrId := ctx2.nextDocPrId + 1 }
    (ctx3, buildImageXml rel.2 cx cy docPrId ("Picture " ++ toString docPrId))

/-- `buildTableCellXml`. -/
def buildTableCellXml (cell : TiptapNode) (ctx : WordCtx) : String :=
  let paragraphs := cell.content.filterMap fun child =>
    if child.type = "paragraph" then
      some (buildParagraphXml child
        { alignment := ctx.alignmentDefaults.table,
          runStyle := some ctx.contentStyle })
    else none
  let paragraphs := if paragraphs = [] then [emptyParagraphXml] else paragraphs
  let colspan := (cell.attrs.colspan).getD 1
  let colSpanXml :=
    if colspan > 1 then "<w:gridSpan w:val=\"" ++ toString colspan ++ "\"/>"
    else ""
  let tcPr := "<w:tcPr>" ++ colSpanXml ++ "<w:vAlign w:val=\"top\"/></w:tcPr>"
  "<w:tc>" ++ tcPr ++ String.join paragraphs ++ "</w:tc>"

/-- `buildTableRowXml`. -/
def buildTableRowXml (row : TiptapNode) (ctx : WordCtx) : String :=
  "<w:tr>" ++ String.join (row.content.map (buildTableCellXml · ctx)) ++ "</w:tr>"

/-- `buildTableXml`. -/
def buildTableXml (node : TiptapNode) (ctx : WordCtx) : String :=
  let rows := node.content
  if rows.isEmpty then ""
  else
    let maxCols := (rows.map (fun row => row.content.length)).foldl max 0
    let gridCols :=
      if maxCols ≠ 0 then
        "<w:tblGrid>" ++
          String.join (List.replicate maxCols "<w:gridCol w:w=\"1\"/>") ++
          "</w:tblGrid>"
      else ""
    let tblPr :=
      "<w:tblPr><w:tblW w:type=\"pct\" w:w=\"5000\"/><w:tblLayout w:type=\"fixed\"/><w:tblBorders>" ++
      "<w:top w:val=\"single\" w:sz=\"4\" w:space=\"0\" w:color=\"DDDDDD\"/>" ++
      "<w:left w:val=\"single\" w:sz=\"4\" w:space=\"0\" w:color=\"DDDDDD\"/>" ++
      "<w:bottom w:val=\"single\" w:sz=\"4\" w:space=\"0\" w:color=\"DDDDDD\"/>" ++
      "<w:right w:val=\"single\" w:sz=\"4\" w:space=\"0\" w:color=\"DDDDDD\"/>" ++
      "<w:insideH w:val=\"single\" w:sz=\"4\" w:space=\"0\" w:color=\"DDDDDD\"/>" ++
      "<w:insideV w:val=\"single\" w:sz=\"4\" w:space=\"0\" w:color=\"DDDDDD\"/>" ++
      "</w:tblBorders></w:tblPr>"
    let rowXml := String.join (rows.map (buildTableRowXml · ctx))
    "<w:tbl>" ++ tblPr ++ gridCols ++ rowXml ++ "</w:tbl>"

/-- One node of the `tiptapToOpenXmlBlocks` loop. -/
def wordNodeStep (oracles : WordOracles) (st : WordLoopState) (node : TiptapNode) :
    WordLoopState × List String :=
  if node.type = "paragraph" then
    match detectNumberedHeading node with
    | some hm =>
      let numbered := applyHeadingNumbering (some hm) st.headingNumbers
      ({ st with
          headingNumbers := numbered.1, inOrderedList := false, orderedCounter := 1 },
       [buildParagraphXml node
         { alignment := st.ctx.alignmentDefaults.paragraph,
           headingLevel := some hm.level,
           headingText := some numbered.2,
           headingStyle := some st.ctx.headingStyle,
           forceBold := true,
           runStyle := some st.ctx.contentStyle }])
    | none =>
      if jsTrim (getNodeText node) = "" then (st, [])
      else
        ({ st with inOrderedList := false, orderedCounter := 1 },
         [buildParagraphXml node
           { alignment := st.ctx.alignmentDefaults.paragraph,
             runStyle := some st.ctx.contentStyle }])
  else if node.type = "heading" then
    let level := (node.attrs.level).getD 1
    ({ st with inOrderedList := false, orderedCounter := 1 },
     [buildParagraphXml node
       { alignment := st.ctx.alignmentDefaults.heading,
         headingLevel := some (min 6 (max 1 level)).toNat,
         headingStyle := some st.ctx.headingStyle,
         forceBold := true,
         runStyle := some st.ctx.contentStyle }])
  else if node.type = "bulletList" then
    let paras := ((node.content.filter (fun item => item.type = "listItem")).map
      extractListParagraphs).flatten
    (st, paras.filterMap fun paragraph =>
      if jsTrim (getNodeText paragraph) = "" then none
      else
        some (buildListParagraphXml paragraph
          { alignment :=
              if st.ctx.alignmentDefaults.bullet = Align.justify then Align.left
              else st.ctx.alignmentDefaults.bullet,
            marker := bulletMarker,
            runStyle := some st.ctx.contentStyle }))
  else if node.type = "orderedList" then
    let st1 :=
      if st.inOrderedList = false then
        { st with orderedCounter := 1, inOrderedList := true }
      else st
    let paras := ((node.content.filter (fun item => item.type = "listItem")).map
      extractListParagraphs).flatten
    let folded := paras.foldl
      (fun (acc : ℕ × List String) paragraph =>
        if jsTrim (getNodeText paragraph) = "" then acc
        else
          (acc.1 + 1,
           acc.2 ++ [buildListParagraphXml paragraph
             { alignment :=
                 if st1.ctx.alignmentDefaults.ordered = Align.justify then Align.left
                 else st1.ctx.alignmentDefaults.ordered,
               marker := toString acc.1 ++ ". ",
               runStyle := some st1.ctx.contentStyle }]))
      (st1.orderedCounter, [])
    ({ st1 with orderedCounter := folded.1 }, folded.2)
  else if node.type = "image" then
    let st1 := { st with inOrderedList := false, orderedCounter := 1 }
    let src := (node.attrs.src).getD ""
    if src = "" then (st1, [])
    else
      let built := buildImageBlock oracles src st1.ctx
      let st2 := { st1 with ctx := built.1 }
      if built.2 = "" then (st2, [])
      else (st2, [wrapParagraphWithAlignment built.2 st2.ctx.alignmentDefaults.image])
  else if node.type = "table" then
    let st1 := { st with inOrderedList := false, orderedCounter := 1 }
    let tableXml := buildTableXml node st1.ctx
    if tableXml = "" then (st1, []) else (st1, [tableXml, emptyParagraphXml])
  else (st, [])

/-- `tiptapToOpenXmlBlocks`: the node loop started from fresh counters, with
the final empty-document fallback. -/
def tiptapToOpenXmlBlocks (oracles : WordOracles) (doc : List TiptapNode)
    (ctx : WordCtx) : WordLoopState × List String :=
  let init : WordLoopState := ⟨ctx, [0, 0, 0, 0, 0, 0], 1, false⟩
  let folded := doc.foldl
    (fun (acc : WordLoopState × List String) node =>
      let e := wordNodeStep oracles acc.1 node
      (e.1, acc.2 ++ e.2))
    (init, [])
  (folded.1, if folded.2 = [] then [emptyParagraphXml] else folded.2)

/-! ### Placeholder splicing and export error gates -/

/-- Positions where the source's start-tag regex `/<w:p(?:\\s|>)/g` matches.
Because of the double escape inside a regex literal, `\\s` denotes a literal
backslash followed by `s`, so the regex matches only `"<w:p>"` or the
six-character text `"<w:p\s"` — not `<w:p` followed by whitespace. -/
def wpStartPositions (xml : List Char) : List ℕ :=
  (List.range (xml.length + 1)).filter fun i =>
    ("<w:p>".data).isPrefixOf (xml.drop i) || ("<w:p\\s".data).isPrefixOf (xml.drop i)

/-- `replaceParagraphContainingPlaceholder`: locate the placeholder, find
the last start-tag match before it and the next `</w:p>` after it, and
replace that span with the generated blocks. -/
def replaceParagraphContainingPlaceholder (documentXml placeholder : String)
    (blocks : List String) : Except String String :=
  let xml := documentXml.data
  match indexOfFrom xml placeholder.data 0 with
  | none =>
    Except.error ("Placeholder " ++ placeholder ++ " not found in template.")
  | some placeholderIndex =>
    let start := ((wpStartPositions xml).filter (· < placeholderIndex)).getLast?
    let endIdx := indexOfFrom xml "</w:p>".data placeholderIndex
    match start, endIdx with
    | some s, some e =>
      Except.ok (String.mk (xml.take s) ++ String.join blocks ++
        String.mk (xml.drop (e + 6)))
    | _, _ =>
      Except.error ("Placeholder " ++ placeholder ++ " is not inside a paragraph.")

/-- Decidable equality for `Except` results. -/
instance {ε α : Type} [DecidableEq ε] [DecidableEq α] : DecidableEq (Except ε α)
  | Except.ok x, Except.ok y =>
    if h : x = y then Decidable.isTrue (congrArg Except.ok h)
    else Decidable.isFalse (fun he => h (Except.ok.inj he))
  | Except.error x, Except.error y =>
    if h : x = y then Decidable.isTrue (congrArg Except.error h)
    else Decidable.isFalse (fun he => h (Except.error.inj he))
  | Except.ok _, Except.error _ => Decidable.isFalse (fun he => Except.noConfusion he)
  | Except.error _, Except.ok _ => Decidable.isFalse (fun he => Except.noConfusion he)

/-- A completed template fetch (`fetch(template.url)`). -/
structure HttpResponse where
  ok : Bool
  status : ℕ
  bytes : List ℕ
deriving DecidableEq, Repr

/-- The template-fetch gate shared verbatim by `buildPdfBytes`,
`buildDocxBlobFromTemplateRich` and `buildDocxBlobFromTemplate`:
a non-success response throws `Template download failed`. -/
def fetchTemplateGate (response : HttpResponse) : Except String (List ℕ) :=
  if response.ok = false then
    Except.error ("Template download failed: " ++ toString response.status)
  else Except.ok response.bytes

/-- `buildPdfBytes` at the error-behavior level: the fetch gate followed by
the (separately embedded) rendering pipeline, abstracted as `render`. -/
def buildPdfBytesOutcome (response : HttpResponse) (render : List ℕ → List ℕ) :
    Except String (List ℕ) :=
  (fetchTemplateGate response).map render

/-- `buildDocxBlobFromTemplateRich` at the error-behavior level. -/
def buildDocxBlobFromTemplateRichOutcome (response : HttpResponse)
    (render : List ℕ → List ℕ) : Except String (List ℕ) :=
  (fetchTemplateGate response).map render

/-- `buildDocxBlobFromTemplate` (legacy Docxtemplater path) at the
error-behavior level. -/
def buildDocxBlobFromTemplateOutcome (response : HttpResponse)
    (render : List ℕ → List ℕ) : Except String (List ℕ) :=
  (fetchTemplateGate response).map render

/-- What the legacy `exportToWord` saved, and from which path. -/
inductive LegacyWordOutcome where
  | savedFromTemplate (blob : List ℕ)
  | savedGenerated (blob : List ℕ)
deriving DecidableEq, Repr

/-- The legacy `exportToWord` (middle module of pdf-export.ts): tries the
template path when `docxUrl` is configured, catches any failure — including
the fetch gate — and falls back to generating and saving a fresh document. -/
def exportToWordLegacy (docxUrl : Option String) (response : HttpResponse)
    (render : List ℕ → List ℕ) (generatedBlob : List ℕ) : LegacyWordOutcome :=
  match docxUrl with
  | some _ =>
    match buildDocxBlobFromTemplateOutcome response render with
    | Except.ok blob => LegacyWordOutcome.savedFromTemplate blob
    | Except.error _ => LegacyWordOutcome.savedGenerated generatedBlob
  | none => LegacyWordOutcome.savedGenerated generatedBlob

/-! ### Proof-support predicates -/

/-- Total number of whitespace characters inside the whitespace segments of
a line (the `spaceCount` reduction of `drawLineSegments`). -/
def wsCharCount (segments : List PdfRun) : ℕ :=
  ((segments.filter wsSeg).map (fun s => s.text.length)).sum

/-- The placements produced by laying segments out left to right from `x`,
advancing by `g` per segment. -/
def placeFrom (g : PdfRun → ℚ) (x : ℚ) : List PdfRun → List PlacedSeg
  | [] => []
  | s :: rest => ⟨s, x⟩ :: placeFrom g (x + g s) rest

/-- A wrapped line is sound when its width with trailing whitespace
discarded fits `maxWidth`, or it contains a character-packed segment that is
single-handedly wider than `maxWidth`. -/
def GoodLine (fonts : FontSet) (maxWidth : ℚ) (l : List PdfRun) : Prop :=
  lineWidth fonts (dropTrailingWs l) ≤ maxWidth ∨ ∃ s ∈ l, maxWidth < segWidth fonts s

/-- Loop invariant of `wrapRuns`. -/
def WrapInv (fonts : FontSet) (maxWidth : ℚ) (st : WrapState) : Prop :=
  st.currentWidth = lineWidth fonts st.current ∧
  GoodLine fonts maxWidth st.current ∧
  ∀ l ∈ st.lines, GoodLine fonts maxWidth l

/-- The counter prefixes emitted by the normalizer's counter stack for a
sequence of heading levels (the level-driven core of
`createNumberingNormalizer`). -/
def normalizerNumberRun (s : List ℕ) : List ℕ → List ℕ × List (List ℕ)
  | [] => (s, [])
  | L :: rest =>
    let s' := stepLevel s L
    let r := normalizerNumberRun s' rest
    (r.1, s' :: r.2)

/-- The counters-array update of `applyHeadingNumbering` together with the
prefix it emits for one heading of the given level. -/
def arrayNumberStep (a : List ℕ) (level : ℕ) : List ℕ × List ℕ :=
  let levelIndex := level - 1
  let c1 := a.set levelIndex (a.getD levelIndex 0 + 1)
  let c2 := c1.take (levelIndex + 1) ++
    List.replicate (c1.length - (levelIndex + 1)) 0
  (c2, c2.take level)

/-- `arrayNumberStep` iterated over a sequence of heading levels. -/
def arrayNumberRun (a : List ℕ) : List ℕ → List ℕ × List (List ℕ)
  | [] => (a, [])
  | L :: rest =>
    let r1 := arrayNumberStep a L
    let r := arrayNumberRun r1.1 rest
    (r.1, r1.2 :: r.2)

/-- Level sequences on which the two numbering algorithms coincide: the
sequence starts at level 1 and each level is 1, the previous level, or one
deeper, always within 1..6. -/
def GoodLevels : ℕ → List ℕ → Prop
  | _, [] => True
  | prev, L :: rest =>
    (L = 1 ∨ L = prev ∨ L = prev + 1) ∧ 1 ≤ L ∧ L ≤ 6 ∧ GoodLevels L rest

/-! ### Concrete fixtures -/

/-- A unit-width character metric. -/
def unitW : Char → ℚ := fun _ => 1

/-- A font set whose four variants all have unit character width. -/
def exFonts : FontSet := ⟨unitW, unitW, unitW, unitW⟩

/-- Image-size oracle for documents without images. -/
def noImg : String → ℚ × ℚ := fun _ => (0, 0)

/-- A tiptap text leaf. -/
def exText (s : String) : TiptapNode := TiptapNode.mk "text" {} [] [] (some s)

/-- A tiptap paragraph node. -/
def exPara (children : List TiptapNode) : TiptapNode :=
  TiptapNode.mk "paragraph" {} children [] none

/-- A tiptap level-1 heading node. -/
def exHeading (children : List TiptapNode) : TiptapNode :=
  TiptapNode.mk "heading" { level := some 1 } children [] none

/-- A tiptap table cell. -/
def exCell (children : List TiptapNode) : TiptapNode :=
  TiptapNode.mk "tableCell" {} children [] none

/-- The round-trip document of the spec's scenario 6: heading "1. Intro",
paragraph "Hello world", and a 2x2 table whose first row is one cell "A"
with colspan 2. -/
def exDoc3 : List TiptapNode :=
  [exHeading [exText "1. Intro"],
   exPara [exText "Hello world"],
   TiptapNode.mk "table" {}
     [TiptapNode.mk "tableRow" {}
        [TiptapNode.mk "tableCell" { colspan := some 2 } [exPara [exText "A"]] [] none]
        [] none,
      TiptapNode.mk "tableRow" {}
        [exCell [exPara [exText "B"]], exCell [exPara [exText "C"]]] [] none]
     [] none]

/-- A layout whose body region comfortably exceeds the content height of
`exDoc3` (unit character widths). -/
def exCtx3 : RenderCtx :=
  { bodyX := 50, bodyY := 100, bodyWidth := 400, bodyHeight := 600,
    bodyLineHeight := 14, headingLineHeight := 18,
    fonts := exFonts, headingFonts := exFonts, bodyAlign := Align.justify }

/-- The paragraph of the overflow scenario. -/
def exPara4 : TiptapNode := exPara [exText "a b"]

/-- The overflow document: one paragraph only. -/
def exDoc4 : List TiptapNode := [exPara4]

/-- A layout in which `exPara4` wraps to 2 lines of height 10 against a body
region of height 15 — the paragraph alone overflows one page. -/
def exCtx4 : RenderCtx :=
  { bodyX := 0, bodyY := 0, bodyWidth := 1, bodyHeight := 15,
    bodyLineHeight := 10, headingLineHeight := 12,
    fonts := exFonts, headingFonts := exFonts, bodyAlign := Align.left }

/-- A paragraph recognized as a numbered heading by both numbering paths. -/
def exOverviewPara : TiptapNode := exPara [exText "1.1 Overview"]

/-- A rich-context fixture for the word-package path. -/
def exWordCtx : WordCtx :=
  { zipMedia := [], relsXml := "<Relationships></Relationships>",
    contentTypesXml := "<Types></Types>", nextRelId := 5, nextImageId := 1,
    nextDocPrId := 1, alignmentDefaults := DEFAULT_ALIGNMENT,
    headingColor := "F04D23",
    contentStyle := ⟨"Helvetica", 11, "111827"⟩,
    headingStyle := ⟨"Helvetica", 13, "F04D23"⟩ }

/-- Oracles for documents without images. -/
def exOracles : WordOracles := ⟨fun _ => [], fun _ => (0, 0)⟩

/-- The document of the blank-block scenario: a paragraph "a" followed by an
empty paragraph. -/
def exDoc9 : List TiptapNode := [exPara [exText "a"], exPara []]

/-- The `{{content}}` placeholder, written with escaped braces. -/
def contentPlaceholder : String := "\x7b\x7bcontent\x7d\x7d"

/-- A template body whose only paragraph carries an attribute on its start
tag. -/
def exAttrParagraphXml : String :=
  "<w:body><w:p w:a=\"1\"><w:r><w:t>" ++ contentPlaceholder ++
    "</w:t></w:r></w:p></w:body>"

/-- The same template body with a bare `<w:p>` start tag. -/
def exPlainParagraphXml : String :=
  "<w:body><w:p><w:r><w:t>" ++ contentPlaceholder ++ "</w:t></w:r></w:p></w:body>"

/-- A concrete justified line: "ab", a single space, "cd" in a box 8 units
wide at unit character widths. -/
def exSegs5 : List PdfRun := [{ text := "ab" }, { text := " " }, { text := "cd" }]

/-- The text box for the concrete justified line. -/
def exBox5 : TextBox :=
  { x := 10, y := 0, width := 8, height := 100, fontSize := 12, lineHeight := 14 }

/-! ## Theorems -/

/-- Rewriting lemma: a normalizer call on a line matched by the numbering
pattern steps the counter stack by the matched level and emits the renumbered
text. -/
theorem normalizeNumbering_match (s : List ℕ) (t : String) (comps : List (List Char))
    (title : String) (h : headingMatch (jsTrim t) = some (comps, title)) :
    normalizeNumbering s t =
      (stepLevel s comps.length,
       ⟨dotJoin (stepLevel s comps.length) ++ " " ++ title, true⟩) := by
  unfold normalizeNumbering
  rw [h]

/-- Rewriting lemma: a normalizer call on a non-matching line returns the
line unchanged and keeps the counter stack. -/
theorem normalizeNumbering_nomatch (s : List ℕ) (t : String)
    (h : headingMatch (jsTrim t) = none) :
    normalizeNumbering s t = (s, ⟨t, false⟩) := by
  unfold normalizeNumbering
  rw [h]

/-- C2 counterexample: feeding the normalizer author-written heading lines
at levels [1,2,2,1,3] yields the final prefix "2.1.1", not the "2.1" the
claim expects — a level-3 heading always gets a three-component number. -/
theorem numbering_sequence_12213_counterexample :
    ((runNormalizer [] ["1 A", "1.1 B", "1.2 C", "2 D", "9.9.9 E"]).2.map
        NumberedHeading.text ≠ ["1 A", "1.1 B", "1.2 C", "2 D", "2.1 E"]) ∧
    (runNormalizer [] ["1 A", "1.1 B", "1.2 C", "2 D", "9.9.9 E"]).2.map
        NumberedHeading.text = ["1 A", "1.1 B", "1.2 C", "2 D", "2.1.1 E"] := by
  decide

/-- C2 (amended): for every sequence of five heading lines whose matched
levels are [1,2,2,1,3], the normalizer emits the numeric prefixes
1, 1.1, 1.2, 2 and 2.1.1 (incrementing a counter at some level resets all
deeper levels; a level-3 heading gets a three-component prefix). -/
theorem numbering_sequence_12213 (t1 t2 t3 t4 t5 : String)
    (c1 c2 c3 c4 c5 : List (List Char)) (s1 s2 s3 s4 s5 : String)
    (h1 : headingMatch (jsTrim t1) = some (c1, s1)) (l1 : c1.length = 1)
    (h2 : headingMatch (jsTrim t2) = some (c2, s2)) (l2 : c2.length = 2)
    (h3 : headingMatch (jsTrim t3) = some (c3, s3)) (l3 : c3.length = 2)
    (h4 : headingMatch (jsTrim t4) = some (c4, s4)) (l4 : c4.length = 1)
    (h5 : headingMatch (jsTrim t5) = some (c5, s5)) (l5 : c5.length = 3) :
    (runNormalizer [] [t1, t2, t3, t4, t5]).2 =
      [⟨"1 " ++ s1, true⟩, ⟨"1.1 " ++ s2, true⟩, ⟨"1.2 " ++ s3, true⟩,
       ⟨"2 " ++ s4, true⟩, ⟨"2.1.1 " ++ s5, true⟩] := by
  simp only [runNormalizer]
  rw [normalizeNumbering_match _ _ _ _ h1, l1]
  rw [normalizeNumbering_match _ _ _ _ h2, l2]
  rw [normalizeNumbering_match _ _ _ _ h3, l3]
  rw [normalizeNumbering_match _ _ _ _ h4, l4]
  rw [normalizeNumbering_match _ _ _ _ h5, l5]
  rw [(by decide : stepLevel [] 1 = [1])]
  rw [(by decide : stepLevel [1] 2 = [1, 1])]
  rw [(by decide : stepLevel [1, 1] 2 = [1, 2])]
  rw [(by decide : stepLevel [1, 2] 1 = [2])]
  rw [(by decide : stepLevel [2] 3 = [2, 1, 1])]
  rw [(by decide : dotJoin [1] ++ " " = "1 "),
    (by decide : dotJoin [1, 1] ++ " " = "1.1 "),
    (by decide : dotJoin [1, 2] ++ " " = "1.2 "),
    (by decide : dotJoin [2] ++ " " = "2 "),
    (by decide : dotJoin [2, 1, 1] ++ " " = "2.1.1 ")]

/-- C2 witness: a concrete five-line instance of the amended theorem. -/
theorem numbering_sequence_12213_witness :
    (runNormalizer [] ["3 Alpha", "7.7 Beta", "8.8 Gamma", "2 Delta",
        "4.4.4 Epsilon"]).2 =
      [⟨"1 Alpha", true⟩, ⟨"1.1 Beta", true⟩, ⟨"1.2 Gamma", true⟩,
       ⟨"2 Delta", true⟩, ⟨"2.1.1 Epsilon", true⟩] := by
  have h := numbering_sequence_12213 "3 Alpha" "7.7 Beta" "8.8 Gamma" "2 Delta"
    "4.4.4 Epsilon" [['3']] [['7'], ['7']] [['8'], ['8']] [['2']]
    [['4'], ['4'], ['4']] "Alpha" "Beta" "Gamma" "Delta" "Epsilon"
    (by decide) (by decide) (by decide) (by decide) (by decide) (by decide)
    (by decide) (by decide) (by decide) (by decide)
  exact h.trans (by decide)

set_option maxRecDepth 40000 in
unseal Rat.add Rat.mul Rat.inv Rat.sub in
/-- C3 counterexample: rendering the round-trip document
[heading "1. Intro", paragraph "Hello world", 2x2 table with one colspan-2
cell "A"] with a body region far taller than the content yields 2 PDF pages
(the template title page plus one content page), not 1; and the heading
block reads "1 Intro" — the normalizer drops the author's period after the
number — not "1. Intro" verbatim. -/
theorem roundTrip_render_counterexample :
    totalPdfPages noImg exDoc3 exCtx3 ≠ 1 ∧
    (tiptapToPdfBlocks exDoc3 exCtx3.bodyAlign).head? =
      some (PdfBlock.paragraph
        { runs := [{ text := "1 Intro", bold := true }], align := Align.justify,
          isHeading := true }) ∧
    "1 Intro" ≠ "1. Intro" := by
  decide

set_option maxRecDepth 40000 in
unseal Rat.add Rat.mul Rat.inv Rat.sub in
/-- C3 (amended): the round-trip document renders to exactly one content
page — 2 PDF pages in total, since `buildPdfBytes` always adds the template
title page and `renderRichContent` always allocates at least one content
page — and the re-derived heading block reads "1 Intro" (the numbering is
re-derived correctly but the trailing period of the author's numeric prefix
is discarded). -/
theorem roundTrip_render :
    totalPdfPages noImg exDoc3 exCtx3 = 2 ∧
    renderRichContentPages noImg exDoc3 exCtx3 = 1 ∧
    (tiptapToPdfBlocks exDoc3 exCtx3.bodyAlign).head? =
      some (PdfBlock.paragraph
        { runs := [{ text := "1 Intro", bold := true }], align := Align.justify,
          isHeading := true }) := by
  decide

/-- C7 counterexample: with a configured template URL and a failed template
fetch, the legacy `exportToWord` does not abort — it saves the generated
fallback document. -/
theorem templateFetch_aborts_counterexample :
    exportToWordLegacy (some "template.docx") ⟨false, 404, []⟩ id [7] =
      LegacyWordOutcome.savedGenerated [7] := by
  decide

/-- C7 (amended): a non-success template fetch makes `buildPdfBytes`,
`buildDocxBlobFromTemplateRich` and `buildDocxBlobFromTemplate` abort with a
"Template download failed" error and produce no output bytes; the legacy
`exportToWord`, however, catches that failure and saves a generated
(non-template) document instead of aborting. -/
theorem templateFetch_aborts (response : HttpResponse) (render : List ℕ → List ℕ)
    (generated : List ℕ) (url : String) (hok : response.ok = false) :
    buildPdfBytesOutcome response render =
      Except.error ("Template download failed: " ++ toString response.status) ∧
    buildDocxBlobFromTemplateRichOutcome response render =
      Except.error ("Template download failed: " ++ toString response.status) ∧
    buildDocxBlobFromTemplateOutcome response render =
      Except.error ("Template download failed: " ++ toString response.status) ∧
    exportToWordLegacy (some url) response render generated =
      LegacyWordOutcome.savedGenerated generated := by
  simp [buildPdfBytesOutcome, buildDocxBlobFromTemplateRichOutcome,
    buildDocxBlobFromTemplateOutcome, exportToWordLegacy, fetchTemplateGate, hok,
    Except.map]

/-- C7 witness: the amended theorem applied to a concrete failed fetch. -/
theorem templateFetch_aborts_witness :
    buildPdfBytesOutcome ⟨false, 500, []⟩ id =
      Except.error "Template download failed: 500" := by
  have h := templateFetch_aborts ⟨false, 500, []⟩ id [] "template.docx" rfl
  exact h.1.trans (by decide)

/-- C8 (code bug): the `{{content}}` placeholder sits inside the paragraph
`<w:p w:a="1">…</w:p>`, yet `replaceParagraphContainingPlaceholder` throws
"is not inside a paragraph", because the start-tag regex `/<w:p(?:\\s|>)/`
double-escapes `\s` inside a regex literal and therefore cannot match a
start tag that carries attributes; with a bare `<w:p>` start tag the
enclosing paragraph is replaced as intended. -/
theorem placeholderParagraph_bug :
    replaceParagraphContainingPlaceholder exAttrParagraphXml contentPlaceholder
      ["<w:p>X</w:p>"] =
      Except.error
        ("Placeholder " ++ contentPlaceholder ++ " is not inside a paragraph.") ∧
    replaceParagraphContainingPlaceholder exPlainParagraphXml contentPlaceholder
      ["<w:p>X</w:p>"] = Except.ok "<w:body><w:p>X</w:p></w:body>" := by
  decide

/-- C6 counterexample: the line "1.1 Overview" is recognized as a level-2
heading by both paths; the section-4.1 normalizer emits "1.1 Overview" while
the word-package numbering emits "0.1 Overview" (its fixed counter array
starts at 0 and is not padded with 1s). -/
theorem headingNumbering_agreement_counterexample :
    (normalizeNumbering [] "1.1 Overview").2 = ⟨"1.1 Overview", true⟩ ∧
    (applyHeadingNumbering (detectNumberedHeading exOverviewPara)
        [0, 0, 0, 0, 0, 0]).2 = "0.1 Overview" ∧
    "1.1 Overview" ≠ "0.1 Overview" := by
  decide

/-- A paragraph node always flattens to exactly one PDF paragraph block. -/
theorem paragraphNode_blocks (node : TiptapNode) (align : Align) (s : List ℕ)
    (h : node.type = "paragraph") :
    ∃ p s', pdfNodeBlocks align s node = (s', [PdfBlock.paragraph p]) := by
  unfold pdfNodeBlocks
  rw [if_pos (Or.inl h)]
  by_cases hr : (tiptapParagraphToPdf node align).runs = []
  · rw [if_pos hr]
    exact ⟨_, _, rfl⟩
  · rw [if_neg hr]
    rcases hnm : normalizeNumbering s
      (String.join (List.map PdfRun.text (tiptapParagraphToPdf node align).runs))
      with ⟨s2, nh⟩
    simp only [hnm]
    split
    · exact ⟨_, _, rfl⟩
    · exact ⟨_, _, rfl⟩

unseal Rat.add Rat.mul Rat.inv Rat.sub in
/-- C4 counterexample: a single paragraph taller than the body region does
produce at least 2 pages, but the 2nd page's label reads "Page 2 of 3", not
"Page 2 of 2" — the first content page is left empty because the oversized
paragraph immediately overflows to a fresh page. -/
theorem overflow_pagination_counterexample :
    (∀ b ∈ tiptapToPdfBlocks exDoc4 exCtx4.bodyAlign,
      exCtx4.bodyHeight < measureBlockHeight noImg b exCtx4) ∧
    2 ≤ totalPdfPages noImg exDoc4 exCtx4 ∧
    pageNumberLabel 0 (totalPdfPages noImg exDoc4 exCtx4) ≠ "Page 2 of 2" := by
  decide

/-- C4 (amended): a document consisting of a single paragraph whose measured
block height exceeds the body region height produces exactly 2 content
pages — 3 PDF pages in total, so at least 2 — with the first content page
left empty, and the 2nd page's page-number label reads "Page 2 of 3". -/
theorem overflow_pagination (imgSize : String → ℚ × ℚ) (node : TiptapNode)
    (ctx : RenderCtx) (hn : node.type = "paragraph")
    (hover : ∀ b ∈ tiptapToPdfBlocks [node] ctx.bodyAlign,
      ctx.bodyHeight < measureBlockHeight imgSize b ctx) :
    renderRichContentPages imgSize [node] ctx = 2 ∧
    totalPdfPages imgSize [node] ctx = 3 ∧
    pageNumberLabel 0 (totalPdfPages imgSize [node] ctx) = "Page 2 of 3" ∧
    2 ≤ totalPdfPages imgSize [node] ctx := by
  obtain ⟨p, s', hps⟩ := paragraphNode_blocks node ctx.bodyAlign [] hn
  have hb : tiptapToPdfBlocks [node] ctx.bodyAlign = [PdfBlock.paragraph p] := by
    simp [tiptapToPdfBlocks, tiptapToPdfBlocksFrom, hps]
  have hm := hover (PdfBlock.paragraph p) (by rw [hb]; exact List.mem_singleton_self _)
  have hcount : renderRichContentPages imgSize [node] ctx = 2 := by
    simp only [renderRichContentPages, hb, renderContentPages, List.foldl]
    rw [if_pos (by linarith)]
  have htot : totalPdfPages imgSize [node] ctx = 3 := by
    simp [totalPdfPages, hcount]
  refine ⟨hcount, htot, ?_, ?_⟩
  · rw [htot]; decide
  · rw [htot]; decide

unseal Rat.add Rat.mul Rat.inv Rat.sub in
/-- C4 witness: the amended theorem applied to the concrete overflow
scenario. -/
theorem overflow_pagination_witness :
    renderRichContentPages noImg [exPara4] exCtx4 = 2 ∧
    totalPdfPages noImg [exPara4] exCtx4 = 3 ∧
    pageNumberLabel 0 (totalPdfPages noImg [exPara4] exCtx4) = "Page 2 of 3" ∧
    2 ≤ totalPdfPages noImg [exPara4] exCtx4 :=
  overflow_pagination noImg exPara4 exCtx4 rfl (by decide)

unseal Rat.mul in
/-- C9 counterexample: in the document [paragraph "a", empty paragraph] the
PDF flattening path gives the empty paragraph a blank block (2 blocks), but
the word-package path skips it (1 block). -/
theorem emptyParagraph_blankBlock_counterexample :
    (tiptapToPdfBlocks exDoc9 Align.justify).length = 2 ∧
    (tiptapToPdfBlocks exDoc9 Align.justify)[1]? =
      some (PdfBlock.paragraph { runs := [{ text := "" }], align := Align.justify }) ∧
    (tiptapToOpenXmlBlocks exOracles exDoc9 exWordCtx).2.length = 1 := by
  decide

/-- Length of the padded counter stack. -/
theorem padTo_len (s : List ℕ) (n : ℕ) :
    (padTo s n).length = s.length + (n - s.length) := by
  simp [padTo]

/-- Padding preserves positivity of the counters. -/
theorem padTo_mem (s : List ℕ) (n : ℕ) (hs : ∀ x ∈ s, 1 ≤ x) :
    ∀ x ∈ padTo s n, 1 ≤ x := by
  intro x hx
  rcases List.mem_append.mp hx with h | h
  · exact hs x h
  · have := List.eq_of_mem_replicate h
    omega

/-- After a counter-stack update at a given level the stack has exactly that
length. -/
theorem stepLevel_length (s : List ℕ) (level : ℕ) (hl : 1 ≤ level) :
    (stepLevel s level).length = level := by
  have hpad := padTo_len s (level - 1)
  simp only [stepLevel]
  split
  · simp only [List.length_cons, List.length_nil]
    omega
  · split
    · simp only [List.length_take, List.length_set]
      omega
    · unfold setIdx
      split
      · simp only [List.length_take, List.length_set]
        omega
      · simp only [List.length_take, List.length_append, List.length_cons,
          List.length_nil]
        omega

/-- A counter-stack update keeps every counter positive. -/
theorem stepLevel_pos (s : List ℕ) (level : ℕ) (hs : ∀ x ∈ s, 1 ≤ x) :
    ∀ x ∈ stepLevel s level, 1 ≤ x := by
  intro x hx
  have hmem : ∀ y ∈ padTo s (level - 1), 1 ≤ y := padTo_mem s _ hs
  simp only [stepLevel] at hx
  split at hx
  · simp at hx
    omega
  · have hx' := List.mem_of_mem_take hx
    split at hx'
    · rcases List.mem_or_eq_of_mem_set hx' with h | h
      · exact hmem x h
      · omega
    · unfold setIdx at hx'
      split at hx'
      · rcases List.mem_or_eq_of_mem_set hx' with h | h
        · exact hmem x h
        · omega
      · rcases List.mem_append.mp hx' with h | h
        · exact hmem x h
        · simp at h
          omega

/-- A successful pattern match always carries at least one digit group, so
the matched level is at least 1. -/
theorem headingMatch_level_pos (s : String) (comps : List (List Char))
    (title : String) (h : headingMatch s = some (comps, title)) :
    1 ≤ comps.length := by
  simp only [headingMatch] at h
  split at h
  · simp at h
  · split at h
    · simp at h
    · split at h
      · simp at h
      · split at h
        · simp at h
        · simp only [Option.some.injEq, Prod.mk.injEq] at h
          rw [← h.1]
          simp

/-- One normalizer call keeps every counter positive. -/
theorem normalizeNumbering_state_pos (s : List ℕ) (t : String)
    (hs : ∀ x ∈ s, 1 ≤ x) : ∀ x ∈ (normalizeNumbering s t).1, 1 ≤ x := by
  unfold normalizeNumbering
  rcases h : headingMatch (jsTrim t) with _ | ⟨comps, title⟩
  · simpa using hs
  · simpa using stepLevel_pos s comps.length hs

/-- Any sequence of normalizer calls keeps every counter positive. -/
theorem runNormalizer_state_pos (inputs : List String) (s : List ℕ)
    (hs : ∀ x ∈ s, 1 ≤ x) : ∀ x ∈ (runNormalizer s inputs).1, 1 ≤ x := by
  induction inputs generalizing s with
  | nil => simpa [runNormalizer] using hs
  | cons t ts ih =>
    simp only [runNormalizer]
    exact ih _ (normalizeNumbering_state_pos s t hs)

/-- C10: after any sequence of calls, every counter in the normalizer's
internal stack is at least 1; a further call whose (trimmed) input matches
the numeric-prefix pattern at level L leaves the stack with length exactly
L and all counters positive, and emits exactly the dot-joined stack followed
by the title; a call whose input does not match returns the input unchanged
with `isHeading = false` and leaves the counter stack untouched. -/
theorem numberingNormalizer_invariant (inputs : List String) :
    (∀ x ∈ (runNormalizer [] inputs).1, 1 ≤ x) ∧
    (∀ t comps title, headingMatch (jsTrim t) = some (comps, title) →
      (normalizeNumbering (runNormalizer [] inputs).1 t).1.length = comps.length ∧
      (∀ x ∈ (normalizeNumbering (runNormalizer [] inputs).1 t).1, 1 ≤ x) ∧
      (normalizeNumbering (runNormalizer [] inputs).1 t).2.text =
        dotJoin (normalizeNumbering (runNormalizer [] inputs).1 t).1 ++ " " ++ title ∧
      (normalizeNumbering (runNormalizer [] inputs).1 t).2.isHeading = true) ∧
    (∀ t, headingMatch (jsTrim t) = none →
      normalizeNumbering (runNormalizer [] inputs).1 t =
        ((runNormalizer [] inputs).1, ⟨t, false⟩)) := by
  have hpos := runNormalizer_state_pos inputs [] (by simp)
  refine ⟨hpos, ?_, ?_⟩
  · intro t comps title h
    have hmatch := normalizeNumbering_match (runNormalizer [] inputs).1 t comps title h
    have hlvl := headingMatch_level_pos (jsTrim t) comps title h
    rw [hmatch]
    exact ⟨stepLevel_length _ _ hlvl, stepLevel_pos _ _ hpos, rfl, rfl⟩
  · intro t h
    exact normalizeNumbering_nomatch _ t h

/-- C10 witness: after consuming "1 A", a level-2 heading leaves a stack of
length exactly 2 and is reported as a heading. -/
theorem numberingNormalizer_invariant_witness :
    (normalizeNumbering (runNormalizer [] ["1 A"]).1 "2.3 B").1.length = 2 ∧
    (normalizeNumbering (runNormalizer [] ["1 A"]).1 "2.3 B").2.isHeading = true := by
  have h := (numberingNormalizer_invariant ["1 A"]).2.1 "2.3 B" [['2'], ['3']] "B"
    (by decide)
  exact ⟨h.1, h.2.2.2⟩

/-- A join of all-empty strings is empty. -/
theorem join_all_empty (l : List String) (h : ∀ x ∈ l, x = "") :
    String.join l = "" := by
  induction l with
  | nil => rfl
  | cons a t ih =>
    have ha := h a (by simp)
    subst ha
    show List.foldl (fun r s => r ++ s) ("" ++ "") t = ""
    rw [(by decide : ("" ++ "" : String) = "")]
    exact ih (fun x hx => h x (by simp [hx]))

set_option maxHeartbeats 1000000 in
/-- C9 (amended): a paragraph or heading node whose extracted plain text is
empty contributes exactly one blank paragraph block in the PDF
block-flattening path (leaving the numbering state unchanged); in the
word-package serialization path, a paragraph whose trimmed text is empty is
skipped entirely — it contributes no block and leaves the loop state
unchanged. -/
theorem emptyParagraph_blankBlock (node : TiptapNode) (align : Align) (s : List ℕ)
    (oracles : WordOracles) (st : WordLoopState) :
    ((node.type = "paragraph" ∨ node.type = "heading") →
      (∀ r ∈ (tiptapParagraphToPdf node align).runs, r.text = "") →
      ∃ runs', pdfNodeBlocks align s node =
        (s, [PdfBlock.paragraph
          { runs := runs', align := (node.attrs.textAlign).getD align }]) ∧
        ∀ r ∈ runs', r.text = "") ∧
    (node.type = "paragraph" → jsTrim (getNodeText node) = "" →
      wordNodeStep oracles st node = (st, [])) := by
  constructor
  · intro hty hempty
    unfold pdfNodeBlocks
    rw [if_pos hty]
    by_cases hr : (tiptapParagraphToPdf node align).runs = []
    · rw [if_pos hr]
      refine ⟨[{ text := "" }], rfl, ?_⟩
      intro r hr'
      simp at hr'
      rw [hr']
    · rw [if_neg hr]
      have hjoin :
          String.join ((tiptapParagraphToPdf node align).runs.map PdfRun.text) = "" := by
        refine join_all_empty _ ?_
        intro x hx
        rcases List.mem_map.mp hx with ⟨r, hrmem, hrx⟩
        rw [← hrx]
        exact hempty r hrmem
      have hnm : normalizeNumbering s
          (String.join ((tiptapParagraphToPdf node align).runs.map PdfRun.text)) =
          (s, ⟨"", false⟩) := by
        rw [hjoin]
        exact normalizeNumbering_nomatch s "" (by decide)
      simp only [hnm]
      exact ⟨(tiptapParagraphToPdf node align).runs, rfl, hempty⟩
  · intro hp he
    unfold wordNodeStep
    rw [if_pos hp]
    have hdet : detectNumberedHeading node = none := by
      unfold detectNumberedHeading
      simp only [he]
      simp
    rw [hdet]
    simp [he]

/-- C9 witness: the amended theorem applied to a paragraph holding a single
empty text child. -/
theorem emptyParagraph_blankBlock_witness :
    (∃ runs', pdfNodeBlocks Align.left [] (exPara [exText ""]) =
      ([], [PdfBlock.paragraph { runs := runs', align := Align.left }]) ∧
      ∀ r ∈ runs', r.text = "") ∧
    wordNodeStep exOracles ⟨exWordCtx, [0, 0, 0, 0, 0, 0], 1, false⟩
        (exPara [exText ""]) =
      (⟨exWordCtx, [0, 0, 0, 0, 0, 0], 1, false⟩, []) := by
  have h := emptyParagraph_blankBlock (exPara [exText ""]) Align.left [] exOracles
    ⟨exWordCtx, [0, 0, 0, 0, 0, 0], 1, false⟩
  exact ⟨h.1 (Or.inl rfl) (by decide), h.2 rfl (by decide)⟩

/-- Padding to an already-reached length is the identity. -/
theorem padTo_of_le (s : List ℕ) (n : ℕ) (h : n ≤ s.length) : padTo s n = s := by
  simp [padTo, Nat.sub_eq_zero_of_le h]

/-- A level-1 heading collapses the stack to one incremented counter. -/
theorem stepLevel_one (s : List ℕ) : stepLevel s 1 = [s.headD 0 + 1] := by
  simp [stepLevel]

/-- At a level equal to the current stack length, the last counter is
incremented in place. -/
theorem stepLevel_same (s : List ℕ) (L : ℕ) (h2 : 2 ≤ L) (hlen : s.length = L) :
    stepLevel s L = s.set (L - 1) (s.getD (L - 1) 0 + 1) := by
  have hpad : padTo s (L - 1) = s := padTo_of_le s _ (by omega)
  simp only [stepLevel]
  rw [if_neg (by omega), hpad, if_pos hlen]
  exact List.take_of_length_le (by simp [hlen])

/-- Going one level deeper appends a fresh counter 1. -/
theorem stepLevel_up (s : List ℕ) (L : ℕ) (h2 : 2 ≤ L) (hlen : s.length = L - 1) :
    stepLevel s L = s ++ [1] := by
  have hpad : padTo s (L - 1) = s := padTo_of_le s _ (by omega)
  simp only [stepLevel]
  rw [if_neg (by omega), hpad, if_neg (by omega)]
  unfold setIdx
  rw [if_neg (by omega)]
  exact List.take_of_length_le (by simp; omega)

/-- Normal form of the word-path counters-array step when the level is in
range. -/
theorem arrayNumberStep_of_len (a : List ℕ) (L : ℕ) (h1 : 1 ≤ L)
    (ha : L ≤ a.length) :
    arrayNumberStep a L =
      ((a.set (L - 1) (a.getD (L - 1) 0 + 1)).take L ++
        List.replicate (a.length - L) 0,
       (a.set (L - 1) (a.getD (L - 1) 0 + 1)).take L) := by
  simp only [arrayNumberStep, List.length_set]
  rw [(by omega : L - 1 + 1 = L)]
  have htl : ((a.set (L - 1) (a.getD (L - 1) 0 + 1)).take L).length = L := by
    simp [List.length_take, List.length_set]
    omega
  rw [List.take_left' htl]

/-- On a well-formed transition (level 1, same level, or one deeper within
1..6) the two numbering algorithms emit the same prefix, and the counters
array remains the counter stack padded with zeros. -/
theorem number_step_agree (s : List ℕ) (prev L : ℕ) (hlen : s.length = prev)
    (hp6 : prev ≤ 6) (hL : L = 1 ∨ L = prev ∨ L = prev + 1) (hL1 : 1 ≤ L)
    (hL6 : L ≤ 6) :
    arrayNumberStep (s ++ List.replicate (6 - prev) 0) L =
      (stepLevel s L ++ List.replicate (6 - L) 0, stepLevel s L) ∧
    (stepLevel s L).length = L := by
  have hslen : (stepLevel s L).length = L := stepLevel_length s L hL1
  have halen : (s ++ List.replicate (6 - prev) 0).length = 6 := by
    simp [hlen]
    omega
  refine ⟨?_, hslen⟩
  rw [arrayNumberStep_of_len _ L hL1 (by omega), halen]
  by_cases h1 : L = 1
  · subst h1
    rw [stepLevel_one]
    obtain ⟨x, tail, hxt⟩ : ∃ x tail, s ++ List.replicate (6 - prev) 0 = x :: tail := by
      cases he : s ++ List.replicate (6 - prev) 0 with
      | nil =>
        exfalso
        rw [he] at halen
        simp at halen
      | cons x tail => exact ⟨x, tail, rfl⟩
    have hxd : x = s.headD 0 := by
      cases s with
      | nil =>
        simp at hlen
        subst hlen
        simp [List.replicate_succ] at hxt
        simp [hxt.1]
      | cons y s' =>
        simp at hxt
        simp [hxt.1]
    rw [hxt]
    simp [hxd]
  · have h2 : 2 ≤ L := by omega
    rcases hL with h | h | h
    · omega
    · subst h
      rw [stepLevel_same s L h2 hlen]
      have hidx : L - 1 < s.length := by omega
      rw [List.getD_append _ _ _ _ hidx, List.set_append_left _ _ hidx]
      have hsetlen : (s.set (L - 1) (s.getD (L - 1) 0 + 1)).length = L := by
        simp [hlen]
      rw [List.take_left' hsetlen]
    · subst h
      rw [stepLevel_up s (prev + 1) h2 (by omega)]
      have hrep : 6 - prev = (5 - prev) + 1 := by omega
      rw [(by omega : prev + 1 - 1 = prev)]
      have hgd : (s ++ List.replicate (6 - prev) 0).getD prev 0 = 0 := by
        rw [List.getD_append_right _ _ _ _ (by omega)]
        rw [hrep, List.replicate_succ]
        simp [hlen]
      rw [hgd]
      have hset : (s ++ List.replicate (6 - prev) 0).set prev (0 + 1) =
          (s ++ [1]) ++ List.replicate (5 - prev) 0 := by
        rw [List.set_append_right _ _ (by omega)]
        rw [hrep, List.replicate_succ, hlen]
        simp
      rw [hset]
      rw [List.take_left' (by simp [hlen])]

/-- Invariant induction for the full level sequence. -/
theorem numberRun_agree_aux (levels : List ℕ) :
    ∀ (s : List ℕ) (prev : ℕ), s.length = prev → prev ≤ 6 →
      GoodLevels prev levels →
      (normalizerNumberRun s levels).2 =
        (arrayNumberRun (s ++ List.replicate (6 - prev) 0) levels).2 := by
  induction levels with
  | nil =>
    intro s prev _ _ _
    rfl
  | cons L rest ih =>
    intro s prev hlen hp6 hgood
    obtain ⟨hL, hL1, hL6, hrest⟩ := hgood
    obtain ⟨hstep, hslen⟩ := number_step_agree s prev L hlen hp6 hL hL1 hL6
    simp only [normalizerNumberRun, arrayNumberRun, hstep]
    rw [ih (stepLevel s L) L hslen hL6 hrest]

/-- `applyHeadingNumbering` is exactly the counters-array step followed by
dot-joining the emitted prefix before the title. -/
theorem applyHeadingNumbering_arrayStep (hm : NumberedHeadingMatch) (a : List ℕ) :
    applyHeadingNumbering (some hm) a =
      ((arrayNumberStep a hm.level).1,
       dotJoin (arrayNumberStep a hm.level).2 ++ " " ++ hm.title) := rfl

/-- C6 (amended): the word-package fixed-array numbering and the section-4.1
counter-stack normalizer emit the same numeric prefixes exactly on level
sequences that start at level 1 and never skip upward — each detected level
is 1, the previous level, or the previous level plus one (all within 1..6).
In general they disagree: the array starts its counters at 0 and never pads
with 1s (see the counterexample). -/
theorem headingNumbering_agreement (levels : List ℕ) (h : GoodLevels 0 levels) :
    (normalizerNumberRun [] levels).2 =
      (arrayNumberRun (List.replicate 6 0) levels).2 := by
  have hx := numberRun_agree_aux levels [] 0 rfl (by omega) h
  simpa using hx

/-- C6 witness: the amended agreement at the level sequence
[1,2,2,1,2,3]. -/
theorem headingNumbering_agreement_witness :
    GoodLevels 0 [1, 2, 2, 1, 2, 3] ∧
    (normalizerNumberRun [] [1, 2, 2, 1, 2, 3]).2 =
      (arrayNumberRun (List.replicate 6 0) [1, 2, 2, 1, 2, 3]).2 :=
  ⟨by norm_num [GoodLevels], headingNumbering_agreement _ (by norm_num [GoodLevels])⟩

/-- Laying segments out left to right from `x0`, each advancing the pen by
`g`, is what the `drawLineSegments` fold computes. -/
theorem foldl_place (g : PdfRun → ℚ) (segments : List PdfRun) :
    ∀ (acc : List PlacedSeg) (x0 : ℚ),
      List.foldl
        (fun (a : List PlacedSeg × ℚ) seg => (a.1 ++ [⟨seg, a.2⟩], a.2 + g seg))
        (acc, x0) segments =
      (acc ++ placeFrom g x0 segments, x0 + (segments.map g).sum) := by
  induction segments with
  | nil =>
    intro acc x0
    simp [placeFrom]
  | cons s rest ih =>
    intro acc x0
    simp only [List.foldl_cons, placeFrom, List.map_cons, List.sum_cons]
    rw [ih]
    simp [List.append_assoc, add_assoc]

/-- Total pen advance of a line whose whitespace segments each receive an
extra `e` per character. -/
theorem advance_sum (fonts : FontSet) (e : ℚ) (segments : List PdfRun) :
    (segments.map (fun s => segWidth fonts s +
        (if wsSeg s = true then e * (s.text.length : ℚ) else 0))).sum =
      lineWidth fonts segments + e * (wsCharCount segments : ℚ) := by
  induction segments with
  | nil => simp [lineWidth, wsCharCount]
  | cons s rest ih =>
    simp only [List.map_cons, List.sum_cons, ih, lineWidth, wsCharCount,
      List.filter_cons]
    by_cases h : wsSeg s = true
    · simp only [h, if_pos]
      simp only [lineWidth, wsCharCount] at *
      simp only [List.map_cons, List.sum_cons]
      push_cast
      ring
    · simp only [h, if_neg]
      simp only [lineWidth, wsCharCount] at *
      simp [h]
      ring

/-- A line with a positive whitespace character count contains a whitespace
segment. -/
theorem wsCharCount_pos_any (segments : List PdfRun) (h : 0 < wsCharCount segments) :
    segments.any wsSeg = true := by
  by_contra hn
  have hfil : segments.filter wsSeg = [] := by
    rw [List.filter_eq_nil_iff]
    intro a ha hw
    exact hn (List.any_eq_true.mpr ⟨a, ha, hw⟩)
  simp [wsCharCount, hfil] at h

set_option maxHeartbeats 1000000 in
/-- C5: on a justified line that is not the paragraph's last line, contains
whitespace characters inside whitespace segments, and measures no wider than
the box, `drawLineSegments` places each segment left to right with every
whitespace segment widened by the leftover width `box.width - lineWidth`
times its share of the whitespace characters — so the gaps are proportional
to the whitespace runs' character counts and the final pen position is
exactly `box.x + box.width` (the line spans the box). The last line of a
paragraph is never stretched: every segment sits at its natural position
from `box.x` and the pen ends at `box.x + lineWidth`. -/
theorem drawLineSegments_justify (segments : List PdfRun) (box : TextBox)
    (fonts : FontSet) (hcnt : 0 < wsCharCount segments)
    (hfit : lineWidth fonts segments ≤ box.width) :
    (drawLineSegments segments box fonts Align.justify false =
      (placeFrom
        (fun s => segWidth fonts s +
          (if wsSeg s = true then
            (box.width - lineWidth fonts segments) / (wsCharCount segments : ℚ) *
              (s.text.length : ℚ)
           else 0))
        box.x segments,
       box.x + box.width)) ∧
    drawLineSegments segments box fonts Align.justify true =
      (placeFrom (segWidth fonts) box.x segments,
       box.x + lineWidth fonts segments) := by
  have hws := wsCharCount_pos_any segments hcnt
  have hcnt2 : 0 < ((segments.filter wsSeg).map (fun s => s.text.length)).sum := hcnt
  have hcq : ((wsCharCount segments : ℚ)) ≠ 0 := by
    exact_mod_cast hcnt.ne'
  have hle0 : (0 : ℚ) ≤ box.width - lineWidth fonts segments := by linarith
  constructor
  · unfold drawLineSegments
    simp only [hws, and_true, and_false, true_and, false_and, if_false, if_true,
      reduceCtorEq, ne_eq, ite_false, ite_true, hcnt2, max_eq_right hle0, add_assoc]
    refine (foldl_place _ segments [] box.x).trans ?_
    rw [List.nil_append]
    have hrw : (List.map (fun x => x.text.length) (List.filter wsSeg segments)).sum
        = wsCharCount segments := rfl
    simp only [hrw]
    rw [advance_sum fonts ((box.width - lineWidth fonts segments) / (wsCharCount segments : ℚ)) segments]
    rw [div_mul_cancel₀ _ hcq]
    congr 1
    ring
  · unfold drawLineSegments
    simp only [and_true, and_false, true_and, false_and, if_false, if_true,
      reduceCtorEq, ne_eq, ite_false, ite_true, add_zero]
    exact foldl_place (segWidth fonts) segments [] box.x

unseal Rat.add Rat.mul Rat.inv Rat.sub in
/-- C5 witness: the justify theorem applied to the concrete line
["ab", " ", "cd"] in a box 8 units wide. -/
theorem drawLineSegments_justify_witness :
    0 < wsCharCount exSegs5 ∧ lineWidth exFonts exSegs5 ≤ exBox5.width ∧
    ((drawLineSegments exSegs5 exBox5 exFonts Align.justify false =
      (placeFrom
        (fun s => segWidth exFonts s +
          (if wsSeg s = true then
            (exBox5.width - lineWidth exFonts exSegs5) / (wsCharCount exSegs5 : ℚ) *
              (s.text.length : ℚ)
           else 0))
        exBox5.x exSegs5,
       exBox5.x + exBox5.width)) ∧
    drawLineSegments exSegs5 exBox5 exFonts Align.justify true =
      (placeFrom (segWidth exFonts) exBox5.x exSegs5,
       exBox5.x + lineWidth exFonts exSegs5)) :=
  ⟨by decide, by decide,
    drawLineSegments_justify exSegs5 exBox5 exFonts (by decide) (by decide)⟩

/-- A fold preserves any invariant its step preserves. -/
theorem foldl_preserves {α β : Type} {P : α → Prop} {f : α → β → α}
    (hstep : ∀ s b, P s → P (f s b)) :
    ∀ (l : List β) (s : α), P s → P (List.foldl f s l) := by
  intro l
  induction l with
  | nil => intro s hs; exact hs
  | cons b rest ih => intro s hs; exact ih _ (hstep s b hs)

/-- All four font variants assign nonnegative widths, so the picked one
does. -/
theorem pickFont_nonneg (fonts : FontSet) (hnn : fonts.Nonneg) (run : PdfRun)
    (c : Char) : 0 ≤ pickFont run fonts c := by
  obtain ⟨h1, h2, h3, h4⟩ := hnn c
  unfold pickFont
  cases hb : run.bold <;> cases hi : run.italic <;> simp [hb, hi] <;> assumption

/-- Character-additive widths are nonnegative when the metric is. -/
theorem strWidthChars_nonneg (f : Char → ℚ) (h : ∀ c, 0 ≤ f c) (cs : List Char) :
    0 ≤ strWidthChars f cs := by
  apply List.sum_nonneg
  intro x hx
  obtain ⟨c, _, rfl⟩ := List.mem_map.mp hx
  exact h c

/-- A segment's width is nonnegative under nonnegative font metrics. -/
theorem segWidth_nonneg (fonts : FontSet) (hnn : fonts.Nonneg) (s : PdfRun) :
    0 ≤ segWidth fonts s :=
  strWidthChars_nonneg _ (fun c => pickFont_nonneg fonts hnn s c) _

/-- Appending a segment adds its width to the line width. -/
theorem lineWidth_append (fonts : FontSet) (l : List PdfRun) (s : PdfRun) :
    lineWidth fonts (l ++ [s]) = lineWidth fonts l + segWidth fonts s := by
  simp [lineWidth]

/-- Discarding trailing whitespace yields a sublist of the line. -/
theorem dropTrailingWs_sublist (l : List PdfRun) :
    List.Sublist (dropTrailingWs l) l := by
  have h1 : List.Sublist (l.reverse.dropWhile wsSeg) l.reverse :=
    (List.dropWhile_suffix _).sublist
  have h2 := h1.reverse
  simpa [dropTrailingWs] using h2

/-- Discarding trailing whitespace cannot increase the measured width. -/
theorem lineWidth_dropTrailingWs_le (fonts : FontSet) (hnn : fonts.Nonneg)
    (l : List PdfRun) : lineWidth fonts (dropTrailingWs l) ≤ lineWidth fonts l := by
  unfold lineWidth
  apply List.Sublist.sum_le_sum ((dropTrailingWs_sublist l).map (segWidth fonts))
  intro x hx
  obtain ⟨s, _, rfl⟩ := List.mem_map.mp hx
  exact segWidth_nonneg fonts hnn s

/-- The empty line is sound for a positive maximum width. -/
theorem GoodLine_nil (fonts : FontSet) (maxWidth : ℚ) (hmw : 0 < maxWidth) :
    GoodLine fonts maxWidth [] := by
  left
  simp [dropTrailingWs, lineWidth]
  linarith

/-- A line whose full width fits is sound. -/
theorem GoodLine_of_width_le (fonts : FontSet) (maxWidth : ℚ) (l : List PdfRun)
    (hnn : fonts.Nonneg) (h : lineWidth fonts l ≤ maxWidth) :
    GoodLine fonts maxWidth l :=
  Or.inl ((lineWidth_dropTrailingWs_le fonts hnn l).trans h)

/-- Appending a whitespace segment does not change the trimmed line. -/
theorem dropTrailingWs_append_ws (l : List PdfRun) (s : PdfRun)
    (h : wsSeg s = true) : dropTrailingWs (l ++ [s]) = dropTrailingWs l := by
  simp [dropTrailingWs, List.dropWhile_cons, h]

/-- Appending a whitespace segment preserves line soundness. -/
theorem GoodLine_append_ws (fonts : FontSet) (maxWidth : ℚ) (l : List PdfRun)
    (s : PdfRun) (h : wsSeg s = true) (hg : GoodLine fonts maxWidth l) :
    GoodLine fonts maxWidth (l ++ [s]) := by
  rcases hg with hg | ⟨t, ht, hwide⟩
  · left
    rwa [dropTrailingWs_append_ws l s h]
  · exact Or.inr ⟨t, List.mem_append_left _ ht, hwide⟩

/-- `pushLine` preserves the wrap invariant. -/
theorem pushLine_inv (fonts : FontSet) (maxWidth : ℚ) (hmw : 0 < maxWidth)
    (st : WrapState) (hinv : WrapInv fonts maxWidth st) :
    WrapInv fonts maxWidth (pushLine st) := by
  obtain ⟨hw, hg, hl⟩ := hinv
  refine ⟨rfl, GoodLine_nil fonts maxWidth hmw, ?_⟩
  intro l hlmem
  simp only [pushLine, List.mem_append, List.mem_singleton] at hlmem
  rcases hlmem with h | h
  · exact hl l h
  · rw [h]
    exact hg

/-- One character of the packing fallback preserves the wrap invariant. -/
theorem packChar_inv (fonts : FontSet) (run : PdfRun) (maxWidth : ℚ) (c : Char)
    (hnn : fonts.Nonneg) (hmw : 0 < maxWidth) (st : WrapState)
    (hinv : WrapInv fonts maxWidth st) :
    WrapInv fonts maxWidth (packChar (pickFont run fonts) run maxWidth st c) := by
  obtain ⟨hw, hg, hl⟩ := hinv
  have hcseg : segWidth fonts { run with text := String.mk [c] } =
      pickFont run fonts c := by
    simp [segWidth, strWidth, strWidthChars, pickFont]
  have hgsingle : GoodLine fonts maxWidth [{ run with text := String.mk [c] }] := by
    by_cases hc : pickFont run fonts c ≤ maxWidth
    · apply GoodLine_of_width_le fonts maxWidth _ hnn
      simp [lineWidth, hcseg, hc]
    · exact Or.inr ⟨_, List.mem_singleton_self _, by rw [hcseg]; linarith⟩
  simp only [packChar]
  by_cases hpush : st.currentWidth + pickFont run fonts c > maxWidth ∧
      st.current ≠ []
  · simp only [if_pos hpush]
    have hpl := pushLine_inv fonts maxWidth hmw st ⟨hw, hg, hl⟩
    refine ⟨?_, ?_, hpl.2.2⟩
    · simp [pushLine, lineWidth, hcseg]
    · simpa [pushLine] using hgsingle
  · simp only [if_neg hpush]
    refine ⟨?_, ?_, hl⟩
    · rw [lineWidth_append, hcseg, hw]
    · by_cases hfit : st.currentWidth + pickFont run fonts c ≤ maxWidth
      · apply GoodLine_of_width_le fonts maxWidth _ hnn
        rw [lineWidth_append, hcseg, ← hw]
        exact hfit
      · have hcur : st.current = [] := by
          by_contra hne
          exact hpush ⟨lt_of_not_le hfit, hne⟩
        rw [hcur]
        simp only [List.nil_append]
        exact hgsingle

/-- One token of the `wrapRuns` loop preserves the wrap invariant. -/
theorem consumeToken_inv (fonts : FontSet) (maxWidth : ℚ) (run : PdfRun)
    (token : List Char) (hnn : fonts.Nonneg) (hmw : 0 < maxWidth)
    (st : WrapState) (hinv : WrapInv fonts maxWidth st) :
    WrapInv fonts maxWidth (consumeToken fonts maxWidth run st token) := by
  obtain ⟨hw, hg, hl⟩ := hinv
  have htokseg : segWidth fonts { run with text := String.mk token } =
      strWidthChars (pickFont run fonts) token := rfl
  have hwsseg : wsSeg { run with text := String.mk token } = isSpaceTok token := rfl
  simp only [consumeToken]
  by_cases htok : token = []
  · simp only [if_pos htok]
    exact ⟨hw, hg, hl⟩
  · simp only [if_neg htok]
    by_cases hP : st.currentWidth + strWidthChars (pickFont run fonts) token >
        maxWidth ∧ st.current ≠ [] ∧ isSpaceTok token = false
    · simp only [if_pos hP]
      have hpl := pushLine_inv fonts maxWidth hmw st ⟨hw, hg, hl⟩
      by_cases hwide : strWidthChars (pickFont run fonts) token > maxWidth
      · simp only [if_pos hwide]
        exact foldl_preserves
          (fun s c hs => packChar_inv fonts run maxWidth c hnn hmw s hs)
          token (pushLine st) hpl
      · simp only [if_neg hwide]
        refine ⟨?_, ?_, hpl.2.2⟩
        · simp [pushLine, lineWidth, htokseg]
        · apply GoodLine_of_width_le fonts maxWidth _ hnn
          simp only [pushLine, List.nil_append]
          rw [show lineWidth fonts [{ run with text := String.mk token }] =
            segWidth fonts { run with text := String.mk token } by
              simp [lineWidth]]
          rw [htokseg]
          linarith
    · simp only [if_neg hP]
      by_cases hwide : strWidthChars (pickFont run fonts) token > maxWidth
      · simp only [if_pos hwide]
        exact foldl_preserves
          (fun s c hs => packChar_inv fonts run maxWidth c hnn hmw s hs)
          token st ⟨hw, hg, hl⟩
      · simp only [if_neg hwide]
        refine ⟨?_, ?_, hl⟩
        · rw [lineWidth_append, htokseg, hw]
        · by_cases hsp : isSpaceTok token = true
          · exact GoodLine_append_ws fonts maxWidth _ _ (hwsseg.trans hsp) hg
          · have hspf : isSpaceTok token = false := by
              simpa using hsp
            by_cases hfit : st.currentWidth +
                strWidthChars (pickFont run fonts) token ≤ maxWidth
            · apply GoodLine_of_width_le fonts maxWidth _ hnn
              rw [lineWidth_append, htokseg, ← hw]
              exact hfit
            · have hcur : st.current = [] := by
                by_contra hne
                exact hP ⟨lt_of_not_le hfit, hne, hspf⟩
              rw [hcur]
              simp only [List.nil_append]
              apply GoodLine_of_width_le fonts maxWidth _ hnn
              rw [show lineWidth fonts [{ run with text := String.mk token }] =
                segWidth fonts { run with text := String.mk token } by
                  simp [lineWidth]]
              rw [htokseg]
              linarith

/-- One run of the `wrapRuns` loop preserves the wrap invariant. -/
theorem consumeRun_inv (fonts : FontSet) (maxWidth : ℚ) (run : PdfRun)
    (hnn : fonts.Nonneg) (hmw : 0 < maxWidth) (st : WrapState)
    (hinv : WrapInv fonts maxWidth st) :
    WrapInv fonts maxWidth (consumeRun fonts maxWidth st run) := by
  unfold consumeRun
  exact foldl_preserves
    (fun s tok hs => consumeToken_inv fonts maxWidth run tok hnn hmw s hs)
    (tokenize run.text.data) st hinv

unseal Rat.add Rat.mul Rat.inv Rat.sub in
/-- C1 counterexample: wrapping the single run "aa " at maximum width 2 with
unit character widths yields one line ["aa", " "] whose segments each fit,
yet whose measured width 3 exceeds the maximum — the trailing whitespace
segment is kept on the line and pushes it past `maxWidth` without any
over-wide token being involved. -/
theorem wrapRuns_width_counterexample :
    wrapRuns [{ text := "aa " }] 2 exFonts =
      [[{ text := "aa" }, { text := " " }]] ∧
    (∀ l ∈ wrapRuns [{ text := "aa " }] 2 exFonts, ∀ s ∈ l,
      segWidth exFonts s ≤ 2) ∧
    ∃ l ∈ wrapRuns [{ text := "aa " }] 2 exFonts, 2 < lineWidth exFonts l := by
  decide

/-- C1 (amended): for every run sequence, positive maximum width and
nonnegative font metrics, `wrapRuns` returns at least one (possibly empty)
line, and every returned line — measured after discarding its trailing
all-whitespace segments — fits within `maxWidth`, unless the line contains a
character-packed segment that is single-handedly wider than `maxWidth`.
(The width bound with trailing whitespace included is false; see the
counterexample.) -/
theorem wrapRuns_sound (runs : List PdfRun) (maxWidth : ℚ) (fonts : FontSet)
    (hmw : 0 < maxWidth) (hnn : fonts.Nonneg) :
    wrapRuns runs maxWidth fonts ≠ [] ∧
    ∀ l ∈ wrapRuns runs maxWidth fonts, GoodLine fonts maxWidth l := by
  have hinv : WrapInv fonts maxWidth
      (runs.foldl (consumeRun fonts maxWidth) ⟨[], [], 0⟩) := by
    apply foldl_preserves
      (fun s r hs => consumeRun_inv fonts maxWidth r hnn hmw s hs)
    refine ⟨rfl, GoodLine_nil fonts maxWidth hmw, ?_⟩
    intro l h
    simp at h
  have key : ∀ (st : WrapState), WrapInv fonts maxWidth st →
      ((if (if st.current = [] then st.lines else st.lines ++ [st.current]) = []
        then [[{ text := "" }]]
        else if st.current = [] then st.lines else st.lines ++ [st.current]) ≠
          ([] : List (List PdfRun)) ∧
       ∀ l ∈ (if (if st.current = [] then st.lines
                  else st.lines ++ [st.current]) = []
              then [[{ text := "" }]]
              else if st.current = [] then st.lines
                   else st.lines ++ [st.current]),
         GoodLine fonts maxWidth l) := by
    intro st hst
    obtain ⟨hw, hg, hl⟩ := hst
    have hdefault : GoodLine fonts maxWidth [{ text := "" }] := by
      apply GoodLine_of_width_le fonts maxWidth _ hnn
      rw [show lineWidth fonts [{ text := "" }] = 0 by
        simp [lineWidth, segWidth, strWidth, strWidthChars]]
      linarith
    by_cases hcur : st.current = []
    · simp only [if_pos hcur]
      by_cases hln : st.lines = []
      · simp only [if_pos hln]
        refine ⟨by simp, ?_⟩
        intro l hlm
        rw [List.mem_singleton.mp hlm]
        exact hdefault
      · simp only [if_neg hln]
        exact ⟨hln, hl⟩
    · simp only [if_neg hcur]
      have hne : st.lines ++ [st.current] ≠ [] := by simp
      simp only [if_neg hne]
      refine ⟨hne, ?_⟩
      intro l hlm
      rcases List.mem_append.mp hlm with h | h
      · exact hl l h
      · rw [List.mem_singleton.mp h]
        exact hg
  exact key (runs.foldl (consumeRun fonts maxWidth) ⟨[], [], 0⟩) hinv

/-- C1 witness: the amended theorem applied to the run "a b" at width 5 with
unit character metrics. -/
theorem wrapRuns_sound_witness :
    (0 : ℚ) < 5 ∧ FontSet.Nonneg exFonts ∧
    (wrapRuns [{ text := "a b" }] 5 exFonts ≠ [] ∧
     ∀ l ∈ wrapRuns [{ text := "a b" }] 5 exFonts, GoodLine exFonts 5 l) :=
  ⟨by norm_num,
   fun c => by refine ⟨?_, ?_, ?_, ?_⟩ <;> norm_num [exFonts, unitW],
   wrapRuns_sound _ _ _ (by norm_num)
     (fun c => by refine ⟨?_, ?_, ?_, ?_⟩ <;> norm_num [exFonts, unitW])⟩

end Templify
